import Mathlib

/-!
# Azure resource-manager client (`pkg/util/azure/azure.go`)

A shallow embedding of the request engine of `SAzureClient`: version
resolution, request construction, the polling loop of `_jsonRequest`, the
synchronous decoder, client construction and account update, and the region
methods that look up hosts and disks.

Conventions of the embedding

* Go strings are lists of characters (`Str`).  Positions returned by
  `strings.Index` are only ever compared with `0`, and a match of valid
  UTF-8 text starts at byte 0 exactly when it starts at character 0.
* Go maps are association lists.  A `for ... range` over a map visits the
  entries in an unspecified order, so every function containing such a loop
  takes the list of entries in the order that loop visits them.
* Libraries that are not part of the repository (`jsonutils`, `net/http`,
  `fmt` formatting of an operand-free format, `unicode.ToLower`, the Azure
  environment and authorizer) are fields of `Env`.
* The remote side is a script of replies: every `client.Do` takes the next
  reply.  When the script is exhausted the call does not return.
-/

namespace Azure

/-- Go `string`, as the list of its characters. -/
abbrev Str := List Char

/-! ## The parts of package `strings` used by the client -/

/-- Position of the first occurrence of `sub` in `s` counted from `i`, or `-1`. -/
def indexFrom (sub : Str) : Str → Nat → Int
  | [], i => if sub.isPrefixOf [] then (i : Int) else -1
  | c :: cs, i => if sub.isPrefixOf (c :: cs) then (i : Int) else indexFrom sub cs (i + 1)

/-- Go `strings.Index(s, sub)`. -/
def Index (s sub : Str) : Int := indexFrom sub s 0

/-- Go `strings.ToLower(s)`, given the case mapping of one rune. -/
def ToLower (lower : Char → Char) (s : Str) : Str := s.map lower

/-- Go `strings.Split(s, sep)` for a separator of one character. -/
def Split : Str → Char → List Str
  | [], _ => [[]]
  | c :: cs, sep =>
    if c = sep then [] :: Split cs sep
    else
      match Split cs sep with
      | [] => [[c]]
      | p :: ps => (c :: p) :: ps

/-- Go `strings.Join(parts, sep)`. -/
def Join : List Str → Str → Str
  | [], _ => []
  | [p], _ => p
  | p :: q :: ps, sep => p ++ sep ++ Join (q :: ps) sep

/-- Go `strings.Replace(s, "\r", "", -1)`: every carriage return is removed. -/
def stripCR (s : Str) : Str := s.filter (fun c => c != '\r')

/-! ## Constants and the version table -/

/-- Constant `AZURE_API_VERSION`. -/
def AZURE_API_VERSION : Str := "2016-02-01".toList

/-- Map `DEFAULT_API_VERSION`, entries in the order of the source text. -/
def DEFAULT_API_VERSION : List (Str × Str) :=
  [ ("Microsoft.Compute/virtualMachines".toList, "2018-04-01".toList),
    ("Microsoft.ClassicCompute/virtualMachines".toList, "2017-04-01".toList),
    ("Microsoft.Compute/operations".toList, "2018-10-01".toList),
    ("Microsoft.ClassicCompute/operations".toList, "2017-04-01".toList),
    ("Microsoft.Network/virtualNetworks".toList, "2018-08-01".toList),
    ("Microsoft.ClassicNetwork/virtualNetworks".toList, "2017-11-15".toList),
    ("Microsoft.Compute/disks".toList, "2018-06-01".toList),
    ("Microsoft.Storage/storageAccounts".toList, "2016-12-01".toList),
    ("Microsoft.ClassicStorage/storageAccounts".toList, "2016-04-01".toList),
    ("Microsoft.Compute/snapshots".toList, "2018-06-01".toList),
    ("Microsoft.Compute/images".toList, "2018-10-01".toList),
    ("Microsoft.Storage".toList, "2016-12-01".toList),
    ("Microsoft.Network/publicIPAddresses".toList, "2018-06-01".toList),
    ("Microsoft.Network/networkSecurityGroups".toList, "2018-06-01".toList),
    ("Microsoft.Network/networkInterfaces".toList, "2018-06-01".toList),
    ("Microsoft.Network".toList, "2018-06-01".toList),
    ("Microsoft.ClassicNetwork/reservedIps".toList, "2016-04-01".toList),
    ("Microsoft.ClassicNetwork/networkSecurityGroups".toList, "2016-11-01".toList) ]

/-- Go map read `m[key]` with the `ok` flag. -/
def mapGet (m : List (Str × Str)) (key : Str) : Option Str :=
  match m with
  | [] => none
  | (k, v) :: rest => if k = key then some v else mapGet rest key

/-- One iteration of the scan loop of `Get` and `jsonRequest`:
`if strings.Index(strings.ToLower(url), strings.ToLower(resourceType)) > 0`. -/
def scanStep (lower : Char → Char) (url : Str) (version : Str) (entry : Str × Str) : Str :=
  if Index (ToLower lower url) (ToLower lower entry.1) > 0 then entry.2 else version

/-- The scan loop of `SAzureClient.Get` and `SAzureClient.jsonRequest`:
`version := AZURE_API_VERSION` followed by the `range` over the table, whose
entries are visited in the order `order`. -/
def resolveVersion (lower : Char → Char) (order : List (Str × Str)) (url : Str) : Str :=
  order.foldl (scanStep lower url) AZURE_API_VERSION

/-- One iteration of the scan loop of `Delete`, `PerformAction`,
`CheckNameAvailability` and `Update`: `if strings.Index(url, resourceType) > 0`. -/
def scanStepExact (url : Str) (version : Str) (entry : Str × Str) : Str :=
  if Index url entry.1 > 0 then entry.2 else version

/-- The scan loop of `Delete`, `PerformAction`, `CheckNameAvailability` and
`Update`, visiting the table in the order `order`. -/
def resolveVersionExact (order : List (Str × Str)) (url : Str) : Str :=
  order.foldl (scanStepExact url) AZURE_API_VERSION

/-! ## Errors, requests, responses and the remote side -/

/-- Go `error` values the client returns. -/
inductive Error where
  /-- The sentinel `cloudprovider.ErrNotFound`. -/
  | ErrNotFound
  /-- Built by `httperrors.NewUnauthorizedError(msg)`. -/
  | Unauthorized (msg : Str)
  /-- Built by `fmt.Errorf`; `msg` is the formatted message. -/
  | Errorf (msg : Str)
  /-- An error handed back by a library call (transport, reading, parsing). -/
  | external (msg : Str)
  deriving DecidableEq, Repr

/-- The request handed to `client.Do`; `body = []` stands for a nil body and
`contentType = []` for an absent `Content-Type` header. -/
structure Request where
  method : Str
  url : Str
  body : Str
  contentType : Str
  deriving DecidableEq, Repr

/-- The fields of `http.Response` the client reads; `Body` is the outcome of
`ioutil.ReadAll(resp.Body)`, `Location` and `AzureAsyncoperation` are
`resp.Header.Get` of these two headers (empty when absent). -/
structure Response where
  StatusCode : Int
  ContentLength : Int
  Location : Str
  AzureAsyncoperation : Str
  Body : Except Str Str

/-- What `client.Do` returns: an error or a response. -/
abbrev Reply := Except Str Response

/-- The remote side: the replies it gives to the coming `client.Do` calls and
the requests it has received so far, oldest first. -/
structure World where
  replies : List Reply
  sent : List Request

/-- A computation that may not return: `none` when a `client.Do` waits for a
reply the script does not hold. -/
abbrev Result (α : Type) := Option (Except Error α)

/-- Package `jsonutils`, over the type `J` of its `JSONObject` values.
`GetString` returns the pair (value, error) of the Go call. -/
structure JSONLib (J : Type) where
  NewDict : J
  Parse : Str → Except Str J
  Contains : J → Str → Bool
  GetString : J → Str → Str × Option Str
  GetArray : J → Str → Except Str (List J)
  String : J → Str

/-- Type `azureenv.Environment`, the two endpoints the client reads. -/
structure Environment where
  ResourceManagerEndpoint : Str
  ActiveDirectoryEndpoint : Str
  deriving DecidableEq, Repr

/-- The libraries outside the repository.
`lower` is `unicode.ToLower`; `NewRequest method url` is the error of
`http.NewRequest(method, url, _)`, `none` when it succeeds; `Sprintf format`
is `fmt.Sprintf(format)` without operands; `Authorizer` is the error of
`conf.Authorizer()` for the given client id, secret, tenant and environment. -/
structure Env (J : Type) where
  json : JSONLib J
  lower : Char → Char
  NewRequest : Str → Str → Option Str
  Sprintf : Str → Str
  EnvironmentFromName : Str → Except Str Environment
  Authorizer : Str → Str → Str → Environment → Option Str

/-- Call `client.Do(req)`: the request reaches the remote side, which answers
with the next reply of its script. -/
def Do (w : World) (req : Request) : World × Option Reply :=
  match w.replies with
  | [] => ({ replies := [], sent := w.sent ++ [req] }, none)
  | r :: rest => ({ replies := rest, sent := w.sent ++ [req] }, some r)

/-! ## The client -/

/-- Type `SRegion`, the fields `fetchRegions` and the region methods of the
examined files use (the back pointer `client` is left out). -/
structure SRegion where
  Name : Str
  SubscriptionID : Str
  deriving DecidableEq, Repr

/-- Type `SAzureClient`. The fields `client` and `authorizer` hold library
objects that no examined method assigns. -/
structure SAzureClient where
  providerId : Str
  providerName : Str
  subscriptionId : Str
  tenantId : Str
  clientId : Str
  clientScret : Str
  domain : Str
  baseUrl : Str
  secret : Str
  envName : Str
  subscriptionName : Str
  env : Environment
  iregions : List SRegion
  deriving DecidableEq, Repr

/-- Method `SAzureClient.getDefaultClient`: stores the environment and the domain,
then asks for an authorizer. -/
def getDefaultClient {J : Type} (E : Env J) (self : SAzureClient) :
    SAzureClient × Except Error Unit :=
  match E.EnvironmentFromName self.envName with
  | .error e => (self, .error (.external e))
  | .ok env =>
    let self1 := { self with env := env, domain := env.ResourceManagerEndpoint }
    match E.Authorizer self.clientId self.clientScret self.tenantId env with
    | some e => (self1, .error (.external e))
    | none => (self1, .ok ())

/-- The URL built at the head of `_jsonRequest`. -/
def requestURL (version domain baseUrl : Str) : Str :=
  if Index baseUrl "?".toList > 0 then
    domain ++ baseUrl ++ "&api-version=".toList ++ version
  else
    domain ++ baseUrl ++ "?api-version=".toList ++ version

/-- The request `_jsonRequest` sends first. -/
def firstRequest (method version domain baseUrl body : Str) : Request :=
  { method := method, url := requestURL version domain baseUrl, body := body,
    contentType := "application/json; charset=utf-8".toList }

/-- The request of one poll: `http.NewRequest("GET", location, nil)`. -/
def pollRequest (location : Str) : Request :=
  { method := "GET".toList, url := location, body := [], contentType := [] }

/-- The tail of `_jsonRequest` (after the polling block): decoding of the
first response. -/
def decodeResponse {J : Type} (E : Env J) (resp : Response) : Except Error J :=
  if resp.ContentLength = 0 then .ok E.json.NewDict
  else
    match resp.Body with
    | .error e => .error (.external e)
    | .ok data =>
      match E.json.Parse (stripCR data) with
      | .error e => .error (.external e)
      | .ok result =>
        if E.json.Contains result "error".toList then
          .error (.Errorf (E.Sprintf (E.json.String result)))
        else .ok result

/-- How the polling loop of `_jsonRequest` is left: by a `return` or by the
`break` of a succeeded operation. -/
inductive PollEnd (J : Type) where
  | ret (r : Except Error J)
  | brk

/-- The `for` loop of `_jsonRequest`, run against the replies of the remote
side. Returns the replies left, the requests sent and how the loop was left
(`none`: a poll is still waiting for its reply). The five seconds of sleep
after a 202 have no effect on the values and are not represented. -/
def pollLoop {J : Type} (E : Env J) (location asyncoperation body : Str) :
    List Reply → List Request → List Reply × List Request × Option (PollEnd J)
  | [], sent =>
    match E.NewRequest "GET".toList location with
    | some e => ([], sent, some (.ret (.error (.external e))))
    | none => ([], sent ++ [pollRequest location], none)
  | r :: rest, sent =>
    match E.NewRequest "GET".toList location with
    | some e => (r :: rest, sent, some (.ret (.error (.external e))))
    | none =>
      let sent1 := sent ++ [pollRequest location]
      match r with
      | .error e => (rest, sent1, some (.ret (.error (.external e))))
      | .ok asyncResp =>
        if asyncResp.StatusCode = 202 then
          pollLoop E location asyncoperation body rest sent1
        else if asyncResp.ContentLength = 0 then
          (rest, sent1, some (.ret (.ok E.json.NewDict)))
        else
          match asyncResp.Body with
          | .error e => (rest, sent1, some (.ret (.error (.external e))))
          | .ok data =>
            match E.json.Parse data with
            | .error e => (rest, sent1, some (.ret (.error (.external e))))
            | .ok asyncData =>
              if asyncoperation.length > 0 ∧ E.json.Contains asyncData "status".toList then
                let status := (E.json.GetString asyncData "status".toList).1
                if status = "InProgress".toList then
                  pollLoop E location asyncoperation body rest sent1
                else if status = "Succeeded".toList then
                  (rest, sent1, some .brk)
                else
                  (rest, sent1, some (.ret (.error (.Errorf
                    ("Create ".toList ++ body ++ " failed: ".toList ++ data)))))
              else
                (rest, sent1, some (.ret (.ok asyncData)))

/-- Function `_jsonRequest`. On a 404 the body is read for the log only. -/
def _jsonRequest {J : Type} (E : Env J) (method version domain baseUrl body : Str)
    (w : World) : World × Result J :=
  let url := requestURL version domain baseUrl
  match E.NewRequest method url with
  | some e => (w, some (.error (.external e)))
  | none =>
    match Do w (firstRequest method version domain baseUrl body) with
    | (w1, none) => (w1, none)
    | (w1, some (.error e)) => (w1, some (.error (.external e)))
    | (w1, some (.ok resp)) =>
      if resp.StatusCode = 404 then (w1, some (.error .ErrNotFound))
      else
        let location := resp.Location
        let asyncoperation := resp.AzureAsyncoperation
        if location.length > 0 ∨ (asyncoperation.length > 0 ∧ resp.StatusCode ≠ 200) then
          let location := if asyncoperation.length > 0 then asyncoperation else location
          match pollLoop E location asyncoperation body w1.replies w1.sent with
          | (replies, sent, none) => ({ replies := replies, sent := sent }, none)
          | (replies, sent, some (.ret r)) => ({ replies := replies, sent := sent }, some r)
          | (replies, sent, some .brk) =>
            ({ replies := replies, sent := sent }, some (decodeResponse E resp))
        else (w1, some (decodeResponse E resp))

/-- Function `jsonRequest`. -/
def jsonRequest {J : Type} (E : Env J) (method version domain baseUrl body : Str)
    (w : World) : World × Result J :=
  _jsonRequest E method version domain baseUrl body w

/-- What a method of the client leaves behind: the client, the remote side
and the returned values. -/
structure Outcome (α : Type) where
  self : SAzureClient
  world : World
  result : Result α

/-- Method `SAzureClient.jsonRequest`; `order` is the order in which the
`range` visits `DEFAULT_API_VERSION`. -/
def SAzureClient.jsonRequest {J : Type} (E : Env J) (order : List (Str × Str))
    (self : SAzureClient) (method url body : Str) (w : World) : Outcome J :=
  match getDefaultClient E self with
  | (self1, .error e) => { self := self1, world := w, result := some (.error e) }
  | (self1, .ok _) =>
    let version := resolveVersion E.lower order url
    let r := Azure.jsonRequest E method version self1.domain url body w
    { self := self1, world := r.1, result := r.2 }

/-- Method `SAzureClient.Get`; `order` is the order in which the `range`
visits `DEFAULT_API_VERSION`, `unmarshal` is `body.Unmarshal(retVal)` for the
type of `retVal`, and the value returned stands for the filled `retVal`. -/
def SAzureClient.Get {J α : Type} (E : Env J) (order : List (Str × Str))
    (unmarshal : J → Except Str α) (self : SAzureClient) (resourceId : Str) (w : World) :
    Outcome α :=
  match getDefaultClient E self with
  | (self1, .error e) => { self := self1, world := w, result := some (.error e) }
  | (self1, .ok _) =>
    let version := resolveVersion E.lower order resourceId
    match Azure.jsonRequest E "GET".toList version self1.domain resourceId [] w with
    | (w1, none) => { self := self1, world := w1, result := none }
    | (w1, some (.error e)) => { self := self1, world := w1, result := some (.error e) }
    | (w1, some (.ok body)) =>
      match unmarshal body with
      | .error e => { self := self1, world := w1, result := some (.error (.external e)) }
      | .ok v => { self := self1, world := w1, result := some (.ok v) }

/-- Method `SAzureClient.Delete`. -/
def SAzureClient.Delete {J : Type} (E : Env J) (order : List (Str × Str))
    (self : SAzureClient) (resourceId : Str) (w : World) : Outcome Unit :=
  match getDefaultClient E self with
  | (self1, .error e) => { self := self1, world := w, result := some (.error e) }
  | (self1, .ok _) =>
    let version := resolveVersionExact order resourceId
    match Azure.jsonRequest E "DELETE".toList version self1.domain resourceId [] w with
    | (w1, none) => { self := self1, world := w1, result := none }
    | (w1, some (.error e)) => { self := self1, world := w1, result := some (.error e) }
    | (w1, some (.ok _)) => { self := self1, world := w1, result := some (.ok ()) }

/-- Method `SAzureClient.PerformAction`. -/
def SAzureClient.PerformAction {J : Type} (E : Env J) (order : List (Str × Str))
    (self : SAzureClient) (resourceId action : Str) (w : World) : Outcome J :=
  match getDefaultClient E self with
  | (self1, .error e) => { self := self1, world := w, result := some (.error e) }
  | (self1, .ok _) =>
    let version := resolveVersionExact order resourceId
    let url := resourceId ++ "/".toList ++ action
    let r := Azure.jsonRequest E "POST".toList version self1.domain url [] w
    { self := self1, world := r.1, result := r.2 }

/-- Method `SAzureClient.ListSubscriptions`. -/
def SAzureClient.ListSubscriptions {J : Type} (E : Env J) (self : SAzureClient) (w : World) :
    Outcome J :=
  match getDefaultClient E self with
  | (self1, .error e) => { self := self1, world := w, result := some (.error e) }
  | (self1, .ok _) =>
    let r := Azure.jsonRequest E "GET".toList AZURE_API_VERSION self1.domain
      "/subscriptions".toList [] w
    { self := self1, world := r.1, result := r.2 }

/-- Method `SAzureClient.List` (the name `List` is the list type here);
`unmarshal` is `body.Unmarshal(retVal, "value")` for the type of `retVal`, and
the value returned stands for the filled `retVal`. -/
def SAzureClient.ListResource {J α : Type} (E : Env J) (unmarshal : J → Except Str α)
    (self : SAzureClient) (golbalResource : Str) (w : World) : Outcome α :=
  match getDefaultClient E self with
  | (self1, .error e) => { self := self1, world := w, result := some (.error e) }
  | (self1, .ok _) =>
    let url := "/subscriptions".toList
    let url := if self1.subscriptionId.length > 0 then
      url ++ "/".toList ++ self1.subscriptionId else url
    let url := if self1.subscriptionId.length > 0 ∧ golbalResource.length > 0 then
      url ++ "/".toList ++ golbalResource else url
    match Azure.jsonRequest E "GET".toList AZURE_API_VERSION self1.domain url [] w with
    | (w1, none) => { self := self1, world := w1, result := none }
    | (w1, some (.error e)) => { self := self1, world := w1, result := some (.error e) }
    | (w1, some (.ok body)) =>
      match unmarshal body with
      | .error e => { self := self1, world := w1, result := some (.error (.external e)) }
      | .ok v => { self := self1, world := w1, result := some (.ok v) }

/-- The last loop of `fetchRegions`: the display name of the first
subscription whose `subscriptionId` is the one looked for. -/
def findSubscriptionName {J : Type} (E : Env J) (subscriptionId : Str) : List J → Option Str
  | [] => none
  | subscription :: rest =>
    if (E.json.GetString subscription "subscriptionId".toList).1 = subscriptionId then
      some (E.json.GetString subscription "displayName".toList).1
    else findSubscriptionName E subscriptionId rest

/-- The second half of `fetchRegions`, from `self.ListSubscriptions()` on. -/
def fetchSubscriptionName {J : Type} (E : Env J) (self : SAzureClient) (w : World) :
    Outcome Unit :=
  let o := SAzureClient.ListSubscriptions E self w
  match o.result with
  | none => { self := o.self, world := o.world, result := none }
  | some (.error e) => { self := o.self, world := o.world, result := some (.error e) }
  | some (.ok body) =>
    match E.json.GetArray body "value".toList with
    | .error e => { self := o.self, world := o.world, result := some (.error (.external e)) }
    | .ok subscriptions =>
      match findSubscriptionName E o.self.subscriptionId subscriptions with
      | some name =>
        { self := { o.self with subscriptionName := name }, world := o.world,
          result := some (.ok ()) }
      | none => { self := o.self, world := o.world, result := some (.ok ()) }

/-- Method `SAzureClient.fetchRegions`; `unmarshalRegions` is
`body.Unmarshal(&regions, "value")` for `regions []SRegion`. -/
def SAzureClient.fetchRegions {J : Type} (E : Env J)
    (unmarshalRegions : J → Except Str (List SRegion)) (self : SAzureClient) (w : World) :
    Outcome Unit :=
  if self.subscriptionId.length > 0 then
    let o := SAzureClient.ListResource E unmarshalRegions self "locations".toList w
    match o.result with
    | none => { self := o.self, world := o.world, result := none }
    | some (.error e) => { self := o.self, world := o.world, result := some (.error e) }
    | some (.ok regions) =>
      let self1 := { o.self with
        iregions := regions.map
          (fun region => { region with SubscriptionID := o.self.subscriptionId }) }
      fetchSubscriptionName E self1 o.world
  else fetchSubscriptionName E self w

/-- The zero value of `SAzureClient`. -/
def SAzureClient.zero : SAzureClient :=
  { providerId := [], providerName := [], subscriptionId := [], tenantId := [],
    clientId := [], clientScret := [], domain := [], baseUrl := [], secret := [],
    envName := [], subscriptionName := [],
    env := { ResourceManagerEndpoint := [], ActiveDirectoryEndpoint := [] },
    iregions := [] }

/-- Function `NewAzureClient`; the client is returned when there is no error. -/
def NewAzureClient {J : Type} (E : Env J) (unmarshalRegions : J → Except Str (List SRegion))
    (providerId providerName accessKey secret envName : Str) (w : World) :
    World × Result SAzureClient :=
  let clientInfo := Split secret '/'
  let accountInfo := Split accessKey '/'
  if clientInfo.length ≥ 2 ∧ accountInfo.length ≥ 1 then
    let client := { SAzureClient.zero with
      providerId := providerId, providerName := providerName, secret := secret,
      envName := envName }
    let client := { client with
      clientId := clientInfo.headD [], clientScret := Join (clientInfo.drop 1) "/".toList }
    let client := { client with tenantId := accountInfo.headD [] }
    let client := if accountInfo.length = 2 then
      { client with subscriptionId := accountInfo.getD 1 [] } else client
    let o := SAzureClient.fetchRegions E unmarshalRegions client w
    match o.result with
    | none => (o.world, none)
    | some (.error e) => (o.world, some (.error e))
    | some (.ok _) => (o.world, some (.ok o.self))
  else
    (w, some (.error (.Unauthorized "clientId、clientScret or subscriptId input error".toList)))

/-- Method `SRegion.GetClassicInstance`, with the client of the region passed
explicitly. -/
def SRegion.GetClassicInstance {J α : Type} (E : Env J) (order : List (Str × Str))
    (unmarshal : J → Except Str α) (client : SAzureClient) (instanceId : Str) (w : World) :
    Outcome α :=
  SAzureClient.Get E order unmarshal client (instanceId ++ "?$expand=instanceView".toList) w

/-- Modelled from the spec: the decoding of the elements of a listing by
`jsonutils` (`Unmarshal` into a slice), which is not among the examined
files: every element is decoded by `decode`, in order, none dropped and none
duplicated; the first error ends it. -/
def decodeAll {J α : Type} (decode : J → Except Str α) : List J → Except Str (List α)
  | [] => .ok []
  | e :: es =>
    match decode e with
    | .error err => .error err
    | .ok d =>
      match decodeAll decode es with
      | .error err => .error err
      | .ok ds => .ok (d :: ds)

/-- Modelled from the spec: `body.Unmarshal(retVal, "value")` of `jsonutils`
for a slice `retVal`, which is not among the examined files: the `value`
array of the envelope is unwrapped and its elements are decoded by `decode`. -/
def UnmarshalValue {J α : Type} (E : Env J) (decode : J → Except Str α) (body : J) :
    Except Str (List α) :=
  match E.json.GetArray body "value".toList with
  | .error err => .error err
  | .ok es => decodeAll decode es

/-- The path `ListAll` builds from the subscription id and the resource type. -/
def listAllPath (subscriptionId resourceType : Str) : Str :=
  let url := "/subscriptions".toList
  let url := if subscriptionId.length > 0 then url ++ "/".toList ++ subscriptionId else url
  if resourceType.length > 0 then url ++ "/providers/".toList ++ resourceType else url

/-- The version `ListAll` uses: the table entry of the resource type, read
with `DEFAULT_API_VERSION[resourceType]`, else `AZURE_API_VERSION`. -/
def listAllVersion (resourceType : Str) : Str :=
  if resourceType.length > 0 then
    match mapGet DEFAULT_API_VERSION resourceType with
    | some _version => _version
    | none => AZURE_API_VERSION
  else AZURE_API_VERSION

/-- Method `SAzureClient.ListAll`; `unmarshal` is `body.Unmarshal(retVal, "value")`
for the type of `retVal`, and the value returned stands for the filled `retVal`. -/
def SAzureClient.ListAll {J α : Type} (E : Env J) (unmarshal : J → Except Str α)
    (self : SAzureClient) (resourceType : Str) (w : World) : Outcome α :=
  match getDefaultClient E self with
  | (self1, .error e) => { self := self1, world := w, result := some (.error e) }
  | (self1, .ok _) =>
    match Azure.jsonRequest E "GET".toList (listAllVersion resourceType) self1.domain
        (listAllPath self1.subscriptionId resourceType) [] w with
    | (w1, none) => { self := self1, world := w1, result := none }
    | (w1, some (.error e)) => { self := self1, world := w1, result := some (.error e) }
    | (w1, some (.ok body)) =>
      match unmarshal body with
      | .error e => { self := self1, world := w1, result := some (.error (.external e)) }
      | .ok v => { self := self1, world := w1, result := some (.ok v) }

/-- The path `Create` builds. -/
def createPath (subscriptionId resourceGroupName type name : Str) : Str :=
  "/subscriptions".toList ++ "/".toList ++ subscriptionId ++
    "/resourceGroups/".toList ++ resourceGroupName ++ "/providers/".toList ++ type ++
    "/".toList ++ name

/-- The version `Create` uses: `DEFAULT_API_VERSION[Type]`, else
`AZURE_API_VERSION`. -/
def createVersion (type : Str) : Str :=
  match mapGet DEFAULT_API_VERSION type with
  | some _version => _version
  | none => AZURE_API_VERSION

/-- Method `SAzureClient.Create`; `defaultResourceGroups` is the map of that
name, declared outside the examined files; `unmarshal` is
`result.Unmarshal(retVal)` and the value returned stands for the filled
`retVal`. The log line written when `name` is missing is not represented. -/
def SAzureClient.Create {J α : Type} (E : Env J) (defaultResourceGroups : List (Str × Str))
    (unmarshal : J → Except Str α) (self : SAzureClient) (body : J) (w : World) : Outcome α :=
  match getDefaultClient E self with
  | (self1, .error e) => { self := self1, world := w, result := some (.error e) }
  | (self1, .ok _) =>
    if self1.subscriptionId.length = 0 then
      { self := self1, world := w,
        result := some (.error (.Errorf "Missing subscription info".toList)) }
    else
      match E.json.GetString body "type".toList with
      | (_, some err) => { self := self1, world := w, result := some (.error (.external err)) }
      | (type, none) =>
        match mapGet defaultResourceGroups type with
        | none =>
          let msg := "Create ".toList ++ type ++ " Missing resourceGroupName".toList
          { self := self1, world := w, result := some (.error (.Errorf (E.Sprintf msg))) }
        | some resourceGroupName =>
          match E.json.GetString body "name".toList with
          | (_, some err) =>
            { self := self1, world := w, result := some (.error (.external err)) }
          | (name, none) =>
            match Azure.jsonRequest E "PUT".toList (createVersion type) self1.domain
                (createPath self1.subscriptionId resourceGroupName type name)
                (E.json.String body) w with
            | (w1, none) => { self := self1, world := w1, result := none }
            | (w1, some (.error e)) =>
              { self := self1, world := w1, result := some (.error e) }
            | (w1, some (.ok result)) =>
              match unmarshal result with
              | .error e =>
                { self := self1, world := w1, result := some (.error (.external e)) }
              | .ok v => { self := self1, world := w1, result := some (.ok v) }

/-- Method `SAzureClient.Update`; `order` is the order in which the `range`
visits `DEFAULT_API_VERSION`. The error of `body.GetString("id")` is assigned
and never read. -/
def SAzureClient.Update {J : Type} (E : Env J) (order : List (Str × Str))
    (self : SAzureClient) (body : J) (w : World) : Outcome J :=
  match getDefaultClient E self with
  | (self1, .error e) => { self := self1, world := w, result := some (.error e) }
  | (self1, .ok _) =>
    let url := (E.json.GetString body "id".toList).1
    let version := resolveVersionExact order url
    let r := Azure.jsonRequest E "PUT".toList version self1.domain url (E.json.String body) w
    { self := self1, world := r.1, result := r.2 }

/-- Method `SAzureClient.UpdateAccount`; `unmarshalRegions` is the decoding
`fetchRegions` uses. The fields `secret` and `envName` are compared and never
assigned. -/
def SAzureClient.UpdateAccount {J : Type} (E : Env J)
    (unmarshalRegions : J → Except Str (List SRegion)) (self : SAzureClient)
    (tenantId secret envName : Str) (w : World) : Outcome Unit :=
  if self.tenantId ≠ tenantId ∨ self.secret ≠ secret ∨ self.envName ≠ envName then
    let clientInfo := Split secret '/'
    let accountInfo := Split tenantId '/'
    if clientInfo.length ≥ 2 ∧ accountInfo.length ≥ 1 then
      let self1 := { self with
        clientId := clientInfo.headD [], clientScret := Join (clientInfo.drop 1) "/".toList }
      let self1 := { self1 with tenantId := accountInfo.headD [] }
      let self1 := if accountInfo.length = 2 then
        { self1 with subscriptionId := accountInfo.getD 1 [] } else self1
      SAzureClient.fetchRegions E unmarshalRegions self1 w
    else
      { self := self, world := w,
        result := some (.error (.Unauthorized
          "clientId、clientScret or subscriptId input error".toList)) }
  else { self := self, world := w, result := some (.ok ()) }

/-- The loop of `SAzureClient.GetIHostById` over the regions still to visit;
`lookup` is the method `GetIHostById` of a region, declared outside the
examined files, and `consulted` lists the regions asked so far. -/
def getIHostByIdLoop {H : Type} (lookup : SRegion → Str → Except Error H) (id : Str) :
    List SRegion → List SRegion → Except Error H × List SRegion
  | [], consulted => (.error .ErrNotFound, consulted)
  | region :: rest, consulted =>
    match lookup region id with
    | .ok ihost => (.ok ihost, consulted ++ [region])
    | .error err =>
      if err ≠ .ErrNotFound then (.error err, consulted ++ [region])
      else getIHostByIdLoop lookup id rest (consulted ++ [region])

/-- Method `SAzureClient.GetIHostById`: the value returned and the regions
that were asked, in the order they were asked. -/
def SAzureClient.GetIHostById {H : Type} (lookup : SRegion → Str → Except Error H)
    (self : SAzureClient) (id : Str) : Except Error H × List SRegion :=
  getIHostByIdLoop lookup id self.iregions []

/-- Type `DiskSku`. -/
structure DiskSku where
  Name : Str
  Tier : Str
  deriving DecidableEq, Repr

/-- Type `ImageDiskReference`. -/
structure ImageDiskReference where
  ID : Str
  Lun : Int
  deriving DecidableEq, Repr

/-- Type `CreationData`; the pointer `ImageReference` may be nil. -/
structure CreationData where
  CreateOption : Str
  StorageAccountID : Str
  ImageReference : Option ImageDiskReference
  SourceURI : Str
  SourceResourceID : Str
  deriving DecidableEq, Repr

/-- Type `DiskProperties`. -/
structure DiskProperties where
  OsType : Str
  CreationData : CreationData
  DiskSizeGB : Int
  ProvisioningState : Str
  deriving DecidableEq, Repr

/-- Type `SDisk` (the back pointer `storage` is left out, the map `Tags` is
the list of its entries, and the field `Type` is named `ResourceType`). -/
structure SDisk where
  ManagedBy : Str
  Sku : DiskSku
  Zones : List Str
  ID : Str
  Name : Str
  ResourceType : Str
  Location : Str
  Properties : DiskProperties
  Tags : List (Str × Str)
  deriving DecidableEq, Repr

/-- The loop of `SRegion.GetDisks`: the disks whose `Location` is the name of
the region are appended to the result, in the order of `disks`. -/
def disksOfRegion (name : Str) : List SDisk → List SDisk → List SDisk
  | [], result => result
  | disk :: rest, result =>
    if disk.Location = name then disksOfRegion name rest (result ++ [disk])
    else disksOfRegion name rest result

/-- Method `SRegion.GetDisks`, with the client of the region passed
explicitly; `unmarshal` is `body.Unmarshal(&disks, "value")`. -/
def SRegion.GetDisks {J : Type} (E : Env J) (unmarshal : J → Except Str (List SDisk))
    (client : SAzureClient) (self : SRegion) (w : World) : Outcome (List SDisk) :=
  let o := SAzureClient.ListAll E unmarshal client "Microsoft.Compute/disks".toList w
  match o.result with
  | none => { self := o.self, world := o.world, result := none }
  | some (.error err) => { self := o.self, world := o.world, result := some (.error err) }
  | some (.ok disks) =>
    { self := o.self, world := o.world,
      result := some (.ok (disksOfRegion self.Name disks [])) }

/-! ## Shapes of poll replies named by the specification -/

/-- A poll reply with HTTP status 202. -/
def isAccepted (r : Reply) : Bool :=
  match r with
  | .ok resp => resp.StatusCode == 202
  | .error _ => false

/-- A poll reply, not a 202, whose non-empty body parses to a value that has
a `status` field whose string is `status`. -/
def hasStatus {J : Type} (E : Env J) (status : Str) (r : Reply) : Bool :=
  match r with
  | .ok resp =>
    resp.StatusCode != 202 && resp.ContentLength != 0 &&
      (match resp.Body with
       | .ok data =>
         (match E.json.Parse data with
          | .ok j =>
            E.json.Contains j "status".toList &&
              (E.json.GetString j "status".toList).1 == status
          | .error _ => false)
       | .error _ => false)
  | .error _ => false

/-! ## Version resolution in the words of the specification -/

/-- Whether the key of `entry` is contained in `url`, compared in lower case. -/
def containsKey (lower : Char → Char) (url : Str) (entry : Str × Str) : Bool :=
  decide (Index (ToLower lower url) (ToLower lower entry.1) ≠ -1)

/-- The version of the last entry of `order` whose key is contained in `url`
(compared in lower case), and `AZURE_API_VERSION` when there is none. -/
def lastMatchVersion (lower : Char → Char) (order : List (Str × Str)) (url : Str) : Str :=
  match (order.filter (containsKey lower url)).getLast? with
  | some entry => entry.2
  | none => AZURE_API_VERSION

/-- The version of the first entry of `order` whose key is contained in `url`. -/
def firstMatchVersion (lower : Char → Char) (order : List (Str × Str)) (url : Str) : Str :=
  match (order.filter (containsKey lower url)).head? with
  | some entry => entry.2
  | none => AZURE_API_VERSION

/-- The version of the entry with the longest key among those contained in
`url` (the earliest such entry of `order` when several have that length). -/
def longestMatchVersion (lower : Char → Char) (order : List (Str × Str)) (url : Str) : Str :=
  match (order.filter (containsKey lower url)).foldl
      (fun (best : Option (Str × Str)) entry =>
        match best with
        | none => some entry
        | some b => if b.1.length < entry.1.length then some entry else some b)
      none with
  | some entry => entry.2
  | none => AZURE_API_VERSION

/-! ## What a listing method returns -/

/-- The value `List` returns for the outcome `r` of its `jsonRequest`: the
wait and the error are passed on, a body is decoded with `unmarshal`. -/
def decodeWith {J α : Type} (unmarshal : J → Except Str α) : Result J → Result α
  | none => none
  | some (.error e) => some (.error e)
  | some (.ok body) =>
    match unmarshal body with
    | .error e => some (.error (.external e))
    | .ok v => some (.ok v)

/-! ## Frame of the credential fields -/

/-- The client `b` holds the `secret`, `envName`, `clientId` and `clientScret`
of the client `a`. -/
def sameAccount (a b : SAzureClient) : Prop :=
  b.secret = a.secret ∧ b.envName = a.envName ∧ b.clientId = a.clientId ∧
    b.clientScret = a.clientScret

/-! ## Concrete libraries for the examples

`fmt.Sprintf` without operands follows `doPrintf` of package `fmt` for an
empty operand list; the JSON library covers objects whose fields are strings
without escapes, written without white space. -/

/-- The flag characters `doPrintf` skips after a percent sign. -/
def isFlag (c : Char) : Bool := c = '#' || c = '0' || c = '+' || c = '-' || c = ' '

/-- Function `parsenum` of package `fmt` on the text of its region: the number
read so far, whether a digit was seen, and the text left (none after an
overflow, where the position jumps to the end of the region). -/
def parsenum : Str → Nat → Bool → Nat × Bool × Str
  | [], num, isnum => (num, isnum, [])
  | c :: cs, num, isnum =>
    if '0' ≤ c ∧ c ≤ '9' then
      if num > 1000000 then (0, false, [])
      else parsenum cs (num * 10 + (c.toNat - 48)) true
    else (num, isnum, c :: cs)

/-- The text before the first `]` and the text after it. -/
def untilBracket : Str → Option (Str × Str)
  | [] => none
  | c :: cs =>
    if c = ']' then some ([], cs)
    else
      match untilBracket cs with
      | none => none
      | some (region, rest) => some (c :: region, rest)

/-- Method `argNumber` of package `fmt` when there is no operand: the text
left, whether an index `[n]` was found, and whether a `[` was met (which,
without operands, always clears `goodArgNum`). -/
def argNumber (s : Str) : Str × Bool × Bool :=
  match s with
  | '[' :: t =>
    if (s.map Char.utf8Size).sum < 3 then (t, false, true)
    else
      match untilBracket t with
      | none => (t, false, true)
      | some (region, rest) =>
        match parsenum region 0 false with
        | (_, isnum, left) => (rest, isnum && left.isEmpty, true)
  | _ => (s, false, false)

/-- One verb of `doPrintf` without operands, from the character after the
percent sign: the text written and the text left (`none` after `NOVERB`,
which ends the formatting). -/
def formatVerb (s : Str) : Str × Option Str :=
  let s := s.dropWhile isFlag
  match argNumber s with
  | (s, afterIndex, bad1) =>
    let width : Str × Str × Bool × Bool :=
      match s with
      | '*' :: t => (t, "%!(BADWIDTH)".toList, false, false)
      | _ =>
        match parsenum s 0 false with
        | (_, widPresent, left) => (left, [], afterIndex, afterIndex && widPresent)
    match width with
    | (s, out1, afterIndex, bad2) =>
      let prec : Str × Str × Bool × Bool :=
        match s with
        | '.' :: t =>
          match argNumber t with
          | (t, afterIndex1, bad) =>
            match t with
            | '*' :: u => (u, "%!(BADPREC)".toList, false, afterIndex || bad)
            | _ =>
              match parsenum t 0 false with
              | (_, _, left) => (left, [], afterIndex1, afterIndex || bad)
        | _ => (s, [], afterIndex, false)
      match prec with
      | (s, out2, afterIndex, bad3) =>
        let last : Str × Bool :=
          if afterIndex then (s, false)
          else
            match argNumber s with
            | (t, _, bad) => (t, bad)
        match last with
        | ([], _) => (out1 ++ out2 ++ "%!(NOVERB)".toList, none)
        | (verb :: t, bad4) =>
          if verb = '%' then (out1 ++ out2 ++ ['%'], some t)
          else if bad1 || bad2 || bad3 || bad4 then
            (out1 ++ out2 ++ "%!".toList ++ [verb] ++ "(BADINDEX)".toList, some t)
          else
            (out1 ++ out2 ++ "%!".toList ++ [verb] ++ "(MISSING)".toList, some t)

/-- The format loop of `doPrintf` without operands; every round consumes at
least one character, `fuel` bounds the rounds. -/
def formatLoop : Nat → Str → Str
  | 0, _ => []
  | fuel + 1, s =>
    let text := s.takeWhile (fun c => c != '%')
    match s.dropWhile (fun c => c != '%') with
    | [] => text
    | _ :: t =>
      match formatVerb t with
      | (out, none) => text ++ out
      | (out, some left) => text ++ out ++ formatLoop fuel left

/-- Go `fmt.Sprintf(format)` called without operands. -/
def Sprintf (format : Str) : Str := formatLoop (format.length + 1) format

/-- JSON objects whose fields are strings. -/
abbrev FlatJSON := List (Str × Str)

/-- A string literal from the character after its opening quote: its
content and the text after the closing quote. -/
def readString : Str → Option (Str × Str)
  | [] => none
  | c :: cs =>
    if c = '"' then some ([], cs)
    else if c = '\\' then none
    else
      match readString cs with
      | none => none
      | some (content, rest) => some (c :: content, rest)

/-- The members of an object from the opening quote of a key up to the
closing brace, which must end the text. -/
def readMembers : Nat → Str → Option FlatJSON
  | 0, _ => none
  | fuel + 1, s =>
    match s with
    | '"' :: cs =>
      match readString cs with
      | some (key, ':' :: '"' :: rest) =>
        match readString rest with
        | some (value, ['\x7d']) => some [(key, value)]
        | some (value, ',' :: more) =>
          match readMembers fuel more with
          | none => none
          | some members => some ((key, value) :: members)
        | _ => none
      | _ => none
    | _ => none

/-- The field `key` of an object. -/
def FlatJSON.get (j : FlatJSON) (key : Str) : Option Str :=
  match j with
  | [] => none
  | (k, v) :: rest => if k = key then some v else FlatJSON.get rest key

/-- The text of an object. -/
def FlatJSON.text (j : FlatJSON) : Str :=
  "\x7b".toList ++ Join (j.map (fun f => "\"".toList ++ f.1 ++ "\":\"".toList ++ f.2 ++ "\"".toList))
    ",".toList ++ "\x7d".toList

/-- A JSON library for objects of string fields. -/
def exampleJSON : JSONLib FlatJSON where
  NewDict := []
  Parse := fun s =>
    match s with
    | ['\x7b', '\x7d'] => .ok []
    | '\x7b' :: cs =>
      match readMembers cs.length cs with
      | some j => .ok j
      | none => .error "unexpected text".toList
    | _ => .error "unexpected text".toList
  Contains := fun j key => (FlatJSON.get j key).isSome
  GetString := fun j key =>
    match FlatJSON.get j key with
    | some v => (v, none)
    | none => ([], some "key not found".toList)
  GetArray := fun _ _ => .error "not an array".toList
  String := FlatJSON.text

/-- An environment for the examples: ASCII case mapping, URLs refused when
they hold a control character, the public cloud as only environment. -/
def exampleEnv : Env FlatJSON where
  json := exampleJSON
  lower := Char.toLower
  NewRequest := fun _ url =>
    if url.any (fun c => c.toNat < 32 || c.toNat = 127) then
      some "invalid control character in URL".toList
    else none
  Sprintf := Sprintf
  EnvironmentFromName := fun name =>
    if name = "AzurePublicCloud".toList then
      .ok { ResourceManagerEndpoint := "https://management.azure.com/".toList,
            ActiveDirectoryEndpoint := "https://login.microsoftonline.com/".toList }
    else .error "There is no cloud environment matching the name".toList
  Authorizer := fun _ _ _ _ => none

deriving instance DecidableEq for Except

/-! ## Example replies -/

/-- The public-cloud endpoint used as domain in the examples. -/
def exampleDomain : Str := "https://management.azure.com/".toList

/-- A poll target used in the examples. -/
def exampleOperation : Str := "https://management.azure.com/operations/1".toList

/-- A response without polling headers. -/
def plainResponse (status : Int) (body : Str) : Response :=
  { StatusCode := status, ContentLength := body.length, Location := [],
    AzureAsyncoperation := [], Body := .ok body }

/-- The poll reply `202` with an empty body. -/
def reply202 : Reply := .ok (plainResponse 202 [])

/-- The poll reply `200` with body `{"status":"InProgress"}`. -/
def replyInProgress : Reply := .ok (plainResponse 200 "\x7b\"status\":\"InProgress\"\x7d".toList)

/-- The poll reply `200` with body `{"status":"Succeeded"}`. -/
def replySucceeded : Reply := .ok (plainResponse 200 "\x7b\"status\":\"Succeeded\"\x7d".toList)

/-- The poll reply `200` with body `{"status":"Failed","detail":"quota exceeded"}`. -/
def replyFailed : Reply :=
  .ok (plainResponse 200 "\x7b\"status\":\"Failed\",\"detail\":\"quota exceeded\"\x7d".toList)

/-- A client of the public cloud with subscription `s1`. -/
def exampleClient : SAzureClient :=
  { SAzureClient.zero with
    subscriptionId := "s1".toList, tenantId := "t1".toList, clientId := "c1".toList,
    clientScret := "p1".toList, secret := "c1/p1".toList,
    envName := "AzurePublicCloud".toList }

/-- The client `exampleClient` after `getDefaultClient`. -/
def exampleClientReady : SAzureClient :=
  { exampleClient with
    domain := exampleDomain,
    env := { ResourceManagerEndpoint := exampleDomain,
             ActiveDirectoryEndpoint := "https://login.microsoftonline.com/".toList } }

/-! ## A JSON library with listings, for the examples -/

/-- A flat object, or the envelope `{"value":[...]}` around flat objects. -/
inductive ListingJSON where
  | object (fields : FlatJSON)
  | listing (value : List FlatJSON)
  deriving DecidableEq, Repr

/-- The members of an object from the opening quote of a key through the
closing brace: the members and the text left. -/
def readFields : Nat → Str → Option (FlatJSON × Str)
  | 0, _ => none
  | fuel + 1, s =>
    match s with
    | '"' :: cs =>
      match readString cs with
      | some (key, ':' :: '"' :: rest) =>
        match readString rest with
        | some (value, '\x7d' :: more) => some ([(key, value)], more)
        | some (value, ',' :: more) =>
          match readFields fuel more with
          | none => none
          | some (members, left) => some ((key, value) :: members, left)
        | _ => none
      | _ => none
    | _ => none

/-- One flat object and the text left. -/
def readObject (s : Str) : Option (FlatJSON × Str) :=
  match s with
  | '\x7b' :: '\x7d' :: rest => some ([], rest)
  | '\x7b' :: cs => readFields cs.length cs
  | _ => none

/-- The objects of a non-empty array from its first object through the
closing bracket: the objects and the text left. -/
def readObjects : Nat → Str → Option (List FlatJSON × Str)
  | 0, _ => none
  | fuel + 1, s =>
    match readObject s with
    | some (o, ']' :: more) => some ([o], more)
    | some (o, ',' :: more) =>
      match readObjects fuel more with
      | none => none
      | some (os, left) => some (o :: os, left)
    | _ => none

/-- The text of an array of flat objects. -/
def listingText (value : List FlatJSON) : Str :=
  "[".toList ++ Join (value.map FlatJSON.text) ",".toList ++ "]".toList

/-- A JSON library for flat objects and listings of flat objects. -/
def listingJSON : JSONLib ListingJSON where
  NewDict := .object []
  Parse := fun s =>
    match s with
    | '\x7b' :: '"' :: 'v' :: 'a' :: 'l' :: 'u' :: 'e' :: '"' :: ':' :: '[' :: rest =>
      match rest with
      | [']', '\x7d'] => .ok (.listing [])
      | _ =>
        match readObjects rest.length rest with
        | some (os, ['\x7d']) => .ok (.listing os)
        | _ => .error "unexpected text".toList
    | _ =>
      match exampleJSON.Parse s with
      | .ok fields => .ok (.object fields)
      | .error e => .error e
  Contains := fun j key =>
    match j with
    | .object fields => (FlatJSON.get fields key).isSome
    | .listing _ => key == "value".toList
  GetString := fun j key =>
    match j with
    | .object fields => exampleJSON.GetString fields key
    | .listing value =>
      if key = "value".toList then (listingText value, none)
      else ([], some "key not found".toList)
  GetArray := fun j key =>
    match j with
    | .object _ => .error "not an array".toList
    | .listing value =>
      if key = "value".toList then .ok (value.map .object)
      else .error "key not found".toList
  String := fun j =>
    match j with
    | .object fields => FlatJSON.text fields
    | .listing value => "\x7b\"value\":".toList ++ listingText value ++ "\x7d".toList

/-- The environment `exampleEnv` with the library `listingJSON`. -/
def listingEnv : Env ListingJSON where
  json := listingJSON
  lower := exampleEnv.lower
  NewRequest := exampleEnv.NewRequest
  Sprintf := exampleEnv.Sprintf
  EnvironmentFromName := exampleEnv.EnvironmentFromName
  Authorizer := exampleEnv.Authorizer

/-- Decoding of an element into a structure with the one field `name`. -/
def decodeName (j : ListingJSON) : Except Str Str :=
  match j with
  | .object fields =>
    match FlatJSON.get fields "name".toList with
    | some name => .ok name
    | none => .ok []
  | .listing _ => .error "not an object".toList

/-- A map `defaultResourceGroups` for the examples. -/
def exampleResourceGroups : List (Str × Str) :=
  [ ("Microsoft.Compute/disks".toList, "YunionResourceGroup".toList) ]

/-- A virtual-network id, in the casing Azure documents. -/
def exampleNetworkId : Str :=
  "/subscriptions/s1/resourceGroups/g/providers/Microsoft.Network/virtualNetworks/v1".toList

/-- A disk id, in the casing Azure documents. -/
def exampleDiskId : Str :=
  "/subscriptions/s1/resourceGroups/g/providers/Microsoft.Compute/disks/d1".toList

/-! ## Example regions, hosts and disks -/

/-- The key of the table whose path resolves differently in two orders. -/
def virtualNetworksKey : Str := "Microsoft.Network/virtualNetworks".toList

/-- A region named `eastus`. -/
def regionEast : SRegion := { Name := "eastus".toList, SubscriptionID := "s1".toList }

/-- A region named `westus`. -/
def regionWest : SRegion := { Name := "westus".toList, SubscriptionID := "s1".toList }

/-- A region named `northeurope`. -/
def regionNorth : SRegion := { Name := "northeurope".toList, SubscriptionID := "s1".toList }

/-- A host lookup: `eastus` does not know the host, `westus` answers with the
host name `host-1`, every other region answers with a transport error. -/
def exampleLookup (region : SRegion) (_id : Str) : Except Error Str :=
  if region.Name = "eastus".toList then .error .ErrNotFound
  else if region.Name = "westus".toList then .ok "host-1".toList
  else .error (.external "connection refused".toList)

/-- A disk with the given name and location, every other field empty. -/
def exampleDisk (name location : Str) : SDisk :=
  { ManagedBy := [], Sku := { Name := [], Tier := [] }, Zones := [], ID := [], Name := name,
    ResourceType := "Microsoft.Compute/disks".toList, Location := location,
    Properties :=
      { OsType := [],
        CreationData :=
          { CreateOption := [], StorageAccountID := [], ImageReference := none,
            SourceURI := [], SourceResourceID := [] },
        DiskSizeGB := 0, ProvisioningState := [] },
    Tags := [] }

/-- Decoding of an element of a listing into a disk: its `name` and
`location` fields. -/
def decodeDisk (j : ListingJSON) : Except Str SDisk :=
  match j with
  | .object fields =>
    .ok (exampleDisk ((FlatJSON.get fields "name".toList).getD [])
      ((FlatJSON.get fields "location".toList).getD []))
  | .listing _ => .error "not an object".toList

end Azure

namespace Azure

/-! ## Version resolution -/

theorem ToLower_ascii (lower : Char → Char)
    (hlower : ∀ c : Char, c.toNat < 128 → lower c = c.toLower)
    (s : Str) (hs : ∀ c ∈ s, c.toNat < 128) : ToLower lower s = ToLower Char.toLower s := by
  unfold ToLower
  exact List.map_congr_left (fun c hc => hlower c (hs c hc))

/-- The scan either keeps its initial version, when no entry matches, or ends
with the version of a matching entry. -/
theorem foldl_scanStep_cases (lower : Char → Char) (url : Str) (order : List (Str × Str))
    (init : Str) :
    (order.foldl (scanStep lower url) init = init ∧
        ∀ e ∈ order, ¬ Index (ToLower lower url) (ToLower lower e.1) > 0) ∨
      ∃ e ∈ order, Index (ToLower lower url) (ToLower lower e.1) > 0 ∧
        order.foldl (scanStep lower url) init = e.2 := by
  induction order generalizing init with
  | nil => left; simp
  | cons a rest ih =>
    simp only [List.foldl_cons]
    rcases ih (scanStep lower url init a) with ⟨heq, hno⟩ | ⟨e, he, hm, heq⟩
    · by_cases ha : Index (ToLower lower url) (ToLower lower a.1) > 0
      · right
        exact ⟨a, List.mem_cons_self _ _, ha, by rw [heq]; simp [scanStep, ha]⟩
      · left
        refine ⟨by rw [heq]; simp [scanStep, ha], ?_⟩
        intro e he
        rcases List.mem_cons.mp he with rfl | h
        · exact ha
        · exact hno e h
    · right
      exact ⟨e, List.mem_cons_of_mem _ he, hm, heq⟩

/-- When some entry matches and all matching entries carry a version with the
property `P`, the resolved version has `P`, in every order. -/
theorem resolveVersion_of_matches (lower : Char → Char) (url : Str)
    (order table : List (Str × Str)) (hperm : order.Perm table) (P : Str → Prop)
    (hex : ∃ e ∈ table, Index (ToLower lower url) (ToLower lower e.1) > 0)
    (hall : ∀ e ∈ table, Index (ToLower lower url) (ToLower lower e.1) > 0 → P e.2) :
    P (resolveVersion lower order url) := by
  unfold resolveVersion
  rcases foldl_scanStep_cases lower url order AZURE_API_VERSION with ⟨_, hno⟩ | ⟨e, he, hm, heq⟩
  · obtain ⟨e, he, hm⟩ := hex
    exact absurd hm (hno e (hperm.mem_iff.mpr he))
  · rw [heq]
    exact hall e (hperm.mem_iff.mp he) hm

/-- Without a matching entry the scan returns the default version. -/
theorem resolveVersion_of_no_match (lower : Char → Char) (url : Str)
    (order table : List (Str × Str)) (hperm : order.Perm table)
    (hno : ∀ e ∈ table, ¬ Index (ToLower lower url) (ToLower lower e.1) > 0) :
    resolveVersion lower order url = AZURE_API_VERSION := by
  unfold resolveVersion
  rcases foldl_scanStep_cases lower url order AZURE_API_VERSION with ⟨h, _⟩ | ⟨e, he, hm, _⟩
  · exact h
  · exact absurd hm (hno e (hperm.mem_iff.mp he))

set_option maxRecDepth 1000000 in
theorem table_ascii : ∀ e ∈ DEFAULT_API_VERSION, ∀ c ∈ e.1, c.toNat < 128 := by decide

set_option maxRecDepth 1000000 in
set_option maxHeartbeats 4000000 in
theorem table_slash_key :
    ∀ p ∈ DEFAULT_API_VERSION,
      Index (ToLower Char.toLower ('/' :: p.1)) (ToLower Char.toLower p.1) > 0 ∧
      ∀ e ∈ DEFAULT_API_VERSION,
        Index (ToLower Char.toLower ('/' :: p.1)) (ToLower Char.toLower e.1) > 0 →
          (p.1 ≠ "Microsoft.Network/virtualNetworks".toList → e.2 = p.2) ∧
          (p.1 = "Microsoft.Network/virtualNetworks".toList →
            e.2 = "2018-08-01".toList ∨ e.2 = "2018-06-01".toList) := by
  decide

/-- The matches of the scan on `/key`, for a case mapping that is the usual
one on ASCII, are those computed with the ASCII mapping. -/
theorem slash_key_lower (lower : Char → Char)
    (hlower : ∀ c : Char, c.toNat < 128 → lower c = c.toLower)
    (p e : Str × Str) (hp : p ∈ DEFAULT_API_VERSION) (he : e ∈ DEFAULT_API_VERSION) :
    Index (ToLower lower ('/' :: p.1)) (ToLower lower e.1) =
      Index (ToLower Char.toLower ('/' :: p.1)) (ToLower Char.toLower e.1) := by
  have h1 : ToLower lower ('/' :: p.1) = ToLower Char.toLower ('/' :: p.1) := by
    apply ToLower_ascii lower hlower
    intro c hc
    rcases List.mem_cons.mp hc with rfl | h
    · decide
    · exact table_ascii p hp c h
  have h2 : ToLower lower e.1 = ToLower Char.toLower e.1 :=
    ToLower_ascii lower hlower e.1 (table_ascii e he)
  rw [h1, h2]

set_option maxRecDepth 1000000 in
/-- C1, counterexample: the key `Microsoft.Compute/disks` passed as the input
resolves to the default version and not to its table entry `2018-06-01`
(a key found at position 0 is not a match), and the path
`/Microsoft.Compute/disks`, which has no entry, does not resolve to the
default version. -/
theorem C1_counterexample :
    (mapGet DEFAULT_API_VERSION "Microsoft.Compute/disks".toList = some "2018-06-01".toList ∧
      resolveVersion Char.toLower DEFAULT_API_VERSION "Microsoft.Compute/disks".toList
        = "2016-02-01".toList) ∧
    (mapGet DEFAULT_API_VERSION "/Microsoft.Compute/disks".toList = none ∧
      resolveVersion Char.toLower DEFAULT_API_VERSION "/Microsoft.Compute/disks".toList
        = "2018-06-01".toList) := by
  decide

/-- C1, amended: in every iteration order of `DEFAULT_API_VERSION`, for every
key `T` other than `Microsoft.Network/virtualNetworks` the scan of `Get` and
`jsonRequest` resolves the path `"/" ++ T` to `DEFAULT_API_VERSION[T]`; for
`Microsoft.Network/virtualNetworks` it resolves to that key's `2018-08-01` or
to the `2018-06-01` of `Microsoft.Network`; and every input in which no key
of the table occurs (compared in lower case) resolves to `AZURE_API_VERSION`. -/
theorem C1_resolveVersion_slash_key (lower : Char → Char)
    (hlower : ∀ c : Char, c.toNat < 128 → lower c = c.toLower)
    (order : List (Str × Str)) (hperm : order.Perm DEFAULT_API_VERSION) :
    (∀ p ∈ DEFAULT_API_VERSION, p.1 ≠ "Microsoft.Network/virtualNetworks".toList →
        resolveVersion lower order ('/' :: p.1) = p.2) ∧
    (resolveVersion lower order ('/' :: "Microsoft.Network/virtualNetworks".toList)
        = "2018-08-01".toList ∨
      resolveVersion lower order ('/' :: "Microsoft.Network/virtualNetworks".toList)
        = "2018-06-01".toList) ∧
    (∀ url : Str,
        (∀ e ∈ DEFAULT_API_VERSION, Index (ToLower lower url) (ToLower lower e.1) = -1) →
        resolveVersion lower order url = AZURE_API_VERSION) := by
  refine ⟨?_, ?_, ?_⟩
  · intro p hp hne
    apply resolveVersion_of_matches lower ('/' :: p.1) order DEFAULT_API_VERSION hperm
      (fun v => v = p.2)
    · refine ⟨p, hp, ?_⟩
      rw [slash_key_lower lower hlower p p hp hp]
      exact (table_slash_key p hp).1
    · intro e he hm
      rw [slash_key_lower lower hlower p e hp he] at hm
      exact ((table_slash_key p hp).2 e he hm).1 hne
  · have key : ∀ p ∈ DEFAULT_API_VERSION, p.1 = "Microsoft.Network/virtualNetworks".toList →
        (resolveVersion lower order ('/' :: p.1) = "2018-08-01".toList ∨
          resolveVersion lower order ('/' :: p.1) = "2018-06-01".toList) := by
      intro p hp heq
      apply resolveVersion_of_matches lower ('/' :: p.1) order DEFAULT_API_VERSION hperm
        (fun v => v = "2018-08-01".toList ∨ v = "2018-06-01".toList)
      · refine ⟨p, hp, ?_⟩
        rw [slash_key_lower lower hlower p p hp hp]
        exact (table_slash_key p hp).1
      · intro e he hm
        rw [slash_key_lower lower hlower p e hp he] at hm
        exact ((table_slash_key p hp).2 e he hm).2 heq
    exact key ("Microsoft.Network/virtualNetworks".toList, "2018-08-01".toList)
      (by decide) rfl
  · intro url hno
    apply resolveVersion_of_no_match lower url order DEFAULT_API_VERSION hperm
    intro e he
    rw [hno e he]
    decide

set_option maxRecDepth 1000000 in
/-- C1, witness: the ASCII case mapping and the reversed table. -/
theorem C1_resolveVersion_slash_key_witness :
    (∀ c : Char, c.toNat < 128 → Char.toLower c = c.toLower) ∧
    DEFAULT_API_VERSION.reverse.Perm DEFAULT_API_VERSION ∧
    resolveVersion Char.toLower DEFAULT_API_VERSION.reverse "/Microsoft.Compute/disks".toList
      = "2018-06-01".toList :=
  ⟨fun _ _ => rfl, List.reverse_perm _,
    (C1_resolveVersion_slash_key Char.toLower (fun _ _ => rfl) DEFAULT_API_VERSION.reverse
      (List.reverse_perm _)).1 ("Microsoft.Compute/disks".toList, "2018-06-01".toList)
      (by decide) (by decide)⟩

end Azure
namespace Azure

/-! ## The request engine -/

/-- The poll target chosen by `_jsonRequest` for a first response. -/
theorem _jsonRequest_reply {J : Type} (E : Env J) (method version domain baseUrl body : Str)
    (w : World) (resp : Response) (rest : List Reply)
    (hreq : E.NewRequest method (requestURL version domain baseUrl) = none)
    (hw : w.replies = .ok resp :: rest) :
    _jsonRequest E method version domain baseUrl body w =
      if resp.StatusCode = 404 then
        ({ replies := rest, sent := w.sent ++ [firstRequest method version domain baseUrl body] },
          some (.error .ErrNotFound))
      else if resp.Location.length > 0 ∨
          (resp.AzureAsyncoperation.length > 0 ∧ resp.StatusCode ≠ 200) then
        match pollLoop E
          (if resp.AzureAsyncoperation.length > 0 then resp.AzureAsyncoperation
            else resp.Location)
          resp.AzureAsyncoperation body rest
          (w.sent ++ [firstRequest method version domain baseUrl body]) with
        | (replies, sent, none) => ({ replies := replies, sent := sent }, none)
        | (replies, sent, some (.ret r)) => ({ replies := replies, sent := sent }, some r)
        | (replies, sent, some .brk) =>
          ({ replies := replies, sent := sent }, some (decodeResponse E resp))
      else
        ({ replies := rest, sent := w.sent ++ [firstRequest method version domain baseUrl body] },
          some (decodeResponse E resp)) := by
  unfold _jsonRequest Do
  simp only [hreq, hw]

theorem _jsonRequest_404 {J : Type} (E : Env J) (method version domain baseUrl body : Str)
    (w : World) (resp : Response) (rest : List Reply)
    (hreq : E.NewRequest method (requestURL version domain baseUrl) = none)
    (hw : w.replies = .ok resp :: rest) (h404 : resp.StatusCode = 404) :
    _jsonRequest E method version domain baseUrl body w =
      ({ replies := rest, sent := w.sent ++ [firstRequest method version domain baseUrl body] },
        some (.error .ErrNotFound)) := by
  rw [_jsonRequest_reply E method version domain baseUrl body w resp rest hreq hw, if_pos h404]


/-- C2: a first response with status 404 makes `_jsonRequest` return
`cloudprovider.ErrNotFound` without a result, after the one request it sent
and with no poll; `Get`, `Delete` and `PerformAction`, once
`getDefaultClient` has succeeded, return exactly that error. -/
theorem C2_not_found {J : Type} (E : Env J) (w : World) (resp : Response) (rest : List Reply)
    (hw : w.replies = .ok resp :: rest) (h404 : resp.StatusCode = 404) :
    (∀ method version domain baseUrl body : Str,
      E.NewRequest method (requestURL version domain baseUrl) = none →
      _jsonRequest E method version domain baseUrl body w =
        ({ replies := rest,
           sent := w.sent ++ [firstRequest method version domain baseUrl body] },
          some (.error .ErrNotFound))) ∧
    (∀ (α : Type) (order : List (Str × Str)) (unmarshal : J → Except Str α)
        (self self1 : SAzureClient) (resourceId : Str),
      getDefaultClient E self = (self1, .ok ()) →
      E.NewRequest "GET".toList
        (requestURL (resolveVersion E.lower order resourceId) self1.domain resourceId) = none →
      (SAzureClient.Get E order unmarshal self resourceId w).result
          = some (.error .ErrNotFound) ∧
        (SAzureClient.Get E order unmarshal self resourceId w).world.replies = rest ∧
        (SAzureClient.Get E order unmarshal self resourceId w).world.sent =
          w.sent ++ [firstRequest "GET".toList (resolveVersion E.lower order resourceId)
            self1.domain resourceId []]) ∧
    (∀ (order : List (Str × Str)) (self self1 : SAzureClient) (resourceId : Str),
      getDefaultClient E self = (self1, .ok ()) →
      E.NewRequest "DELETE".toList
        (requestURL (resolveVersionExact order resourceId) self1.domain resourceId) = none →
      (SAzureClient.Delete E order self resourceId w).result = some (.error .ErrNotFound) ∧
        (SAzureClient.Delete E order self resourceId w).world.replies = rest ∧
        (SAzureClient.Delete E order self resourceId w).world.sent =
          w.sent ++ [firstRequest "DELETE".toList (resolveVersionExact order resourceId)
            self1.domain resourceId []]) ∧
    (∀ (order : List (Str × Str)) (self self1 : SAzureClient) (resourceId action : Str),
      getDefaultClient E self = (self1, .ok ()) →
      E.NewRequest "POST".toList
        (requestURL (resolveVersionExact order resourceId) self1.domain
          (resourceId ++ "/".toList ++ action)) = none →
      (SAzureClient.PerformAction E order self resourceId action w).result
          = some (.error .ErrNotFound) ∧
        (SAzureClient.PerformAction E order self resourceId action w).world.replies = rest ∧
        (SAzureClient.PerformAction E order self resourceId action w).world.sent =
          w.sent ++ [firstRequest "POST".toList (resolveVersionExact order resourceId)
            self1.domain (resourceId ++ "/".toList ++ action) []]) := by
  refine ⟨?_, ?_, ?_, ?_⟩
  · intro method version domain baseUrl body hreq
    exact _jsonRequest_404 E method version domain baseUrl body w resp rest hreq hw h404
  · intro α order unmarshal self self1 resourceId hgdc hreq
    have h := _jsonRequest_404 E "GET".toList (resolveVersion E.lower order resourceId)
      self1.domain resourceId [] w resp rest hreq hw h404
    unfold SAzureClient.Get
    simp only [hgdc, jsonRequest, h]
    exact ⟨trivial, trivial, trivial⟩
  · intro order self self1 resourceId hgdc hreq
    have h := _jsonRequest_404 E "DELETE".toList (resolveVersionExact order resourceId)
      self1.domain resourceId [] w resp rest hreq hw h404
    unfold SAzureClient.Delete
    simp only [hgdc, jsonRequest, h]
    exact ⟨trivial, trivial, trivial⟩
  · intro order self self1 resourceId action hgdc hreq
    have h := _jsonRequest_404 E "POST".toList (resolveVersionExact order resourceId)
      self1.domain (resourceId ++ "/".toList ++ action) [] w resp rest hreq hw h404
    unfold SAzureClient.PerformAction
    simp only [hgdc, jsonRequest, h]
    exact ⟨trivial, trivial, trivial⟩

set_option maxRecDepth 1000000 in
/-- C2, witness: a 404 that carries a body and both polling headers, answered
to `Get` on a disk id. -/
theorem C2_not_found_witness :
    (SAzureClient.Get exampleEnv DEFAULT_API_VERSION (fun j => Except.ok j) exampleClient
        "/subscriptions/s1/providers/Microsoft.Compute/disks/d1".toList
        { replies := [.ok { StatusCode := 404, ContentLength := 2,
                            Location := exampleOperation,
                            AzureAsyncoperation := exampleOperation,
                            Body := .ok "\x7b\x7d".toList }, reply202],
          sent := [] }).result = some (.error .ErrNotFound) :=
  ((C2_not_found exampleEnv
      { replies := [.ok { StatusCode := 404, ContentLength := 2,
                          Location := exampleOperation,
                          AzureAsyncoperation := exampleOperation,
                          Body := .ok "\x7b\x7d".toList }, reply202],
        sent := [] }
      { StatusCode := 404, ContentLength := 2, Location := exampleOperation,
        AzureAsyncoperation := exampleOperation, Body := .ok "\x7b\x7d".toList }
      [reply202] rfl rfl).2.1 FlatJSON DEFAULT_API_VERSION (fun j => Except.ok j)
      exampleClient exampleClientReady
      "/subscriptions/s1/providers/Microsoft.Compute/disks/d1".toList
      (by decide) (by decide)).1

end Azure
namespace Azure

/-! ## The polling loop -/

theorem replicate_snoc_append (sent : List Request) (p : Request) (n : Nat) :
    (sent ++ [p]) ++ List.replicate n p = sent ++ List.replicate (n + 1) p := by
  simp [List.replicate_succ]

/-- What a reply with a given `status` string holds. -/
theorem hasStatus_elim {J : Type} (E : Env J) (status : Str) (r : Reply)
    (h : hasStatus E status r = true) :
    ∃ resp data j, r = .ok resp ∧ resp.StatusCode ≠ 202 ∧ resp.ContentLength ≠ 0 ∧
      resp.Body = .ok data ∧ E.json.Parse data = .ok j ∧
      E.json.Contains j "status".toList = true ∧
      (E.json.GetString j "status".toList).1 = status := by
  cases r with
  | error e => simp [hasStatus] at h
  | ok resp =>
    cases hb : resp.Body with
    | error e => simp [hasStatus, hb] at h
    | ok data =>
      cases hp : E.json.Parse data with
      | error e => simp [hasStatus, hb, hp] at h
      | ok j =>
        simp only [hasStatus, hb, hp, Bool.and_eq_true, bne_iff_ne, ne_eq, beq_iff_eq] at h
        exact ⟨resp, data, j, rfl, h.1.1, h.1.2, hb, hp, h.2.1, h.2.2⟩

/-- One round of the loop on a reply that is not a 202 and whose body parses. -/
theorem pollLoop_parsed {J : Type} (E : Env J) (location asyncoperation body : Str)
    (hnr : E.NewRequest "GET".toList location = none)
    (resp : Response) (data : Str) (j : J) (rest : List Reply) (sent : List Request)
    (h202 : resp.StatusCode ≠ 202) (hlen : resp.ContentLength ≠ 0)
    (hb : resp.Body = .ok data) (hp : E.json.Parse data = .ok j) :
    pollLoop E location asyncoperation body (.ok resp :: rest) sent =
      if asyncoperation.length > 0 ∧ E.json.Contains j "status".toList = true then
        if (E.json.GetString j "status".toList).1 = "InProgress".toList then
          pollLoop E location asyncoperation body rest (sent ++ [pollRequest location])
        else if (E.json.GetString j "status".toList).1 = "Succeeded".toList then
          (rest, sent ++ [pollRequest location], some .brk)
        else
          (rest, sent ++ [pollRequest location], some (.ret (.error (.Errorf
            ("Create ".toList ++ body ++ " failed: ".toList ++ data)))))
      else (rest, sent ++ [pollRequest location], some (.ret (.ok j))) := by
  rw [pollLoop]
  simp only [hnr, h202, hlen, hb, hp, if_false]

/-- Replies that are 202, or carry the status `InProgress` on the
asynchronous-operation path, are each answered by one more poll. -/
theorem pollLoop_keeps {J : Type} (E : Env J) (location asyncoperation body : Str)
    (hnr : E.NewRequest "GET".toList location = none)
    (seq rest : List Reply) (sent : List Request)
    (hseq : ∀ r ∈ seq, isAccepted r = true ∨
      (asyncoperation.length > 0 ∧ hasStatus E "InProgress".toList r = true)) :
    pollLoop E location asyncoperation body (seq ++ rest) sent =
      pollLoop E location asyncoperation body rest
        (sent ++ List.replicate seq.length (pollRequest location)) := by
  induction seq generalizing sent with
  | nil => simp
  | cons r seq ih =>
    have hrest : ∀ r ∈ seq, isAccepted r = true ∨
        (asyncoperation.length > 0 ∧ hasStatus E "InProgress".toList r = true) :=
      fun x hx => hseq x (List.mem_cons_of_mem _ hx)
    have key : pollLoop E location asyncoperation body (r :: (seq ++ rest)) sent =
        pollLoop E location asyncoperation body (seq ++ rest) (sent ++ [pollRequest location]) := by
      rcases hseq r (List.mem_cons_self _ _) with hacc | ⟨hasync, hst⟩
      · cases r with
        | error e => simp [isAccepted] at hacc
        | ok resp =>
          have h202 : resp.StatusCode = 202 := by simpa [isAccepted] using hacc
          rw [pollLoop]
          simp only [hnr, h202, if_true]
      · obtain ⟨resp, data, j, rfl, h202, hlen, hb, hp, hc, hs⟩ :=
          hasStatus_elim E "InProgress".toList r hst
        rw [pollLoop_parsed E location asyncoperation body hnr resp data j _ sent h202 hlen hb hp]
        simp only [hasync, hc, hs, and_self, if_true]
    rw [List.cons_append, key, ih _ hrest, replicate_snoc_append, List.length_cons]

/-- Every request the loop sends is a poll of `location`, and it sends at
least one when `http.NewRequest` accepts `location`. -/
theorem pollLoop_sent {J : Type} (E : Env J) (location asyncoperation body : Str)
    (replies : List Reply) (sent : List Request) :
    ∃ k, (pollLoop E location asyncoperation body replies sent).2.1 =
        sent ++ List.replicate k (pollRequest location) ∧
      (E.NewRequest "GET".toList location = none → 1 ≤ k) := by
  induction replies generalizing sent with
  | nil =>
    rw [pollLoop]
    cases hnr : E.NewRequest "GET".toList location with
    | some e => exact ⟨0, by simp, by simp⟩
    | none => exact ⟨1, by simp, by simp⟩
  | cons r rest ih =>
    rw [pollLoop]
    cases hnr : E.NewRequest "GET".toList location with
    | some e => exact ⟨0, by simp, by simp⟩
    | none =>
      have hrec : ∃ k, (pollLoop E location asyncoperation body rest
          (sent ++ [pollRequest location])).2.1 =
          sent ++ List.replicate k (pollRequest location) ∧ (True → 1 ≤ k) := by
        obtain ⟨k, hk, _⟩ := ih (sent ++ [pollRequest location])
        exact ⟨k + 1, by rw [hk, replicate_snoc_append], fun _ => Nat.le_add_left 1 k⟩
      have hone : ∃ k, sent ++ [pollRequest location] =
          sent ++ List.replicate k (pollRequest location) ∧ (True → 1 ≤ k) :=
        ⟨1, by simp, fun _ => Nat.le_refl 1⟩
      simp only
      split
      · exact hone
      · split
        · exact hrec
        · split
          · exact hone
          · split
            · exact hone
            · split
              · exact hone
              · split
                · split
                  · exact hrec
                  · split
                    · exact hone
                    · exact hone
                · exact hone

/-- On the asynchronous-operation path, replies that keep the loop going
followed by the status `Succeeded` leave the loop by its `break`. -/
theorem pollLoop_succeeded {J : Type} (E : Env J) (location asyncoperation body : Str)
    (hnr : E.NewRequest "GET".toList location = none) (hasync : asyncoperation.length > 0)
    (seq : List Reply) (last : Reply) (rest : List Reply) (sent : List Request)
    (hseq : ∀ r ∈ seq, isAccepted r = true ∨ hasStatus E "InProgress".toList r = true)
    (hlast : hasStatus E "Succeeded".toList last = true) :
    pollLoop E location asyncoperation body (seq ++ last :: rest) sent =
      (rest, sent ++ List.replicate (seq.length + 1) (pollRequest location), some .brk) := by
  obtain ⟨resp, data, j, rfl, h202, hlen, hb, hp, hc, hs⟩ :=
    hasStatus_elim E "Succeeded".toList last hlast
  have hne : ¬ ("Succeeded".toList = "InProgress".toList) := by decide
  rw [pollLoop_keeps E location asyncoperation body hnr seq _ sent
      (fun r hr => (hseq r hr).imp id (fun h => ⟨hasync, h⟩)),
    pollLoop_parsed E location asyncoperation body hnr resp data j rest _ h202 hlen hb hp]
  simp only [hasync, hc, hs, and_self, if_true, hne, if_false]
  rw [List.append_assoc, ← List.replicate_succ']

/-- On the asynchronous-operation path, replies that keep the loop going
followed by a status that is neither `InProgress` nor `Succeeded` end the
loop with the error built from the request body and the poll payload. -/
theorem pollLoop_failed {J : Type} (E : Env J) (location asyncoperation body : Str)
    (hnr : E.NewRequest "GET".toList location = none) (hasync : asyncoperation.length > 0)
    (seq : List Reply) (resp : Response) (data : Str) (j : J) (rest : List Reply)
    (sent : List Request)
    (hseq : ∀ r ∈ seq, isAccepted r = true ∨ hasStatus E "InProgress".toList r = true)
    (h202 : resp.StatusCode ≠ 202) (hlen : resp.ContentLength ≠ 0)
    (hb : resp.Body = .ok data) (hp : E.json.Parse data = .ok j)
    (hc : E.json.Contains j "status".toList = true)
    (h1 : (E.json.GetString j "status".toList).1 ≠ "InProgress".toList)
    (h2 : (E.json.GetString j "status".toList).1 ≠ "Succeeded".toList) :
    pollLoop E location asyncoperation body (seq ++ .ok resp :: rest) sent =
      (rest, sent ++ List.replicate (seq.length + 1) (pollRequest location),
        some (.ret (.error (.Errorf
          ("Create ".toList ++ body ++ " failed: ".toList ++ data))))) := by
  rw [pollLoop_keeps E location asyncoperation body hnr seq _ sent
      (fun r hr => (hseq r hr).imp id (fun h => ⟨hasync, h⟩)),
    pollLoop_parsed E location asyncoperation body hnr resp data j rest _ h202 hlen hb hp]
  simp only [hasync, hc, and_self, if_true, h1, h2, if_false]
  rw [List.append_assoc, ← List.replicate_succ']


theorem append_singleton_append (a : List Request) (f : Request) (l : List Request) :
    (a ++ [f]) ++ l = a ++ f :: l := by
  simp

set_option maxRecDepth 1000000 in
/-- C3, counterexample: a `201` whose body is `{"id":"x"}` and which names an
asynchronous operation, followed by the poll replies 202, 202, `InProgress`,
`Succeeded`: four polls are sent and the value returned is the parsed body
of the first response, not the empty dict. -/
theorem C3_counterexample :
    (_jsonRequest exampleEnv "PUT".toList "2018-06-01".toList exampleDomain
        "/subscriptions/s1/resourceGroups/g/providers/Microsoft.Compute/disks/d1".toList
        "\x7b\"name\":\"d1\"\x7d".toList
        { replies := [.ok { StatusCode := 201, ContentLength := 10, Location := [],
                            AzureAsyncoperation := exampleOperation,
                            Body := .ok "\x7b\"id\":\"x\"\x7d".toList },
                      reply202, reply202, replyInProgress, replySucceeded],
          sent := [] }).2 = some (.ok [("id".toList, "x".toList)]) ∧
    (_jsonRequest exampleEnv "PUT".toList "2018-06-01".toList exampleDomain
        "/subscriptions/s1/resourceGroups/g/providers/Microsoft.Compute/disks/d1".toList
        "\x7b\"name\":\"d1\"\x7d".toList
        { replies := [.ok { StatusCode := 201, ContentLength := 10, Location := [],
                            AzureAsyncoperation := exampleOperation,
                            Body := .ok "\x7b\"id\":\"x\"\x7d".toList },
                      reply202, reply202, replyInProgress, replySucceeded],
          sent := [] }).2 ≠ some (.ok exampleJSON.NewDict) := by
  decide

/-- C3, amended: after a first response that is not a 404 and enters polling
through the `Azure-Asyncoperation` header, poll replies that are 202 or
`{"status":"InProgress"}` followed by `{"status":"Succeeded"}` are each
answered by exactly one poll `GET`; the poll payload is discarded and the
value returned is what the decoder of the first response gives, which is the
empty dict without error when the first response has content length zero. -/
theorem C3_succeeded_decodes_first_response {J : Type} (E : Env J)
    (method version domain baseUrl body : Str) (w : World) (resp : Response)
    (seq : List Reply) (last : Reply) (rest : List Reply)
    (hreq : E.NewRequest method (requestURL version domain baseUrl) = none)
    (hw : w.replies = .ok resp :: (seq ++ last :: rest))
    (h404 : resp.StatusCode ≠ 404)
    (hasync : resp.AzureAsyncoperation.length > 0)
    (henter : resp.Location.length > 0 ∨ resp.StatusCode ≠ 200)
    (hpoll : E.NewRequest "GET".toList resp.AzureAsyncoperation = none)
    (hseq : ∀ r ∈ seq, isAccepted r = true ∨ hasStatus E "InProgress".toList r = true)
    (hlast : hasStatus E "Succeeded".toList last = true) :
    _jsonRequest E method version domain baseUrl body w =
        ({ replies := rest,
           sent := w.sent ++ firstRequest method version domain baseUrl body ::
             List.replicate (seq.length + 1) (pollRequest resp.AzureAsyncoperation) },
          some (decodeResponse E resp)) ∧
      (resp.ContentLength = 0 →
        (_jsonRequest E method version domain baseUrl body w).2 = some (.ok E.json.NewDict)) := by
  have hcond : resp.Location.length > 0 ∨
      (resp.AzureAsyncoperation.length > 0 ∧ resp.StatusCode ≠ 200) :=
    henter.imp id (fun h => ⟨hasync, h⟩)
  have main : _jsonRequest E method version domain baseUrl body w =
      ({ replies := rest,
         sent := w.sent ++ firstRequest method version domain baseUrl body ::
           List.replicate (seq.length + 1) (pollRequest resp.AzureAsyncoperation) },
        some (decodeResponse E resp)) := by
    rw [_jsonRequest_reply E method version domain baseUrl body w resp _ hreq hw,
      if_neg h404, if_pos hcond, if_pos hasync,
      pollLoop_succeeded E resp.AzureAsyncoperation resp.AzureAsyncoperation body hpoll hasync
        seq last rest _ hseq hlast, append_singleton_append]
  refine ⟨main, ?_⟩
  intro hzero
  rw [main]
  simp [decodeResponse, hzero]

set_option maxRecDepth 1000000 in
/-- C3, witness: a `202` without body that names an asynchronous operation,
then the poll replies 202, 202, `InProgress`, `Succeeded`. -/
theorem C3_succeeded_decodes_first_response_witness :
    (_jsonRequest exampleEnv "DELETE".toList "2018-06-01".toList exampleDomain
        "/subscriptions/s1/resourceGroups/g/providers/Microsoft.Compute/disks/d1".toList []
        { replies := [.ok { StatusCode := 202, ContentLength := 0, Location := [],
                            AzureAsyncoperation := exampleOperation, Body := .ok [] },
                      reply202, reply202, replyInProgress, replySucceeded],
          sent := [] }).2 = some (.ok exampleJSON.NewDict) :=
  (C3_succeeded_decodes_first_response exampleEnv "DELETE".toList "2018-06-01".toList
    exampleDomain
    "/subscriptions/s1/resourceGroups/g/providers/Microsoft.Compute/disks/d1".toList []
    { replies := [.ok { StatusCode := 202, ContentLength := 0, Location := [],
                        AzureAsyncoperation := exampleOperation, Body := .ok [] },
                  reply202, reply202, replyInProgress, replySucceeded],
      sent := [] }
    { StatusCode := 202, ContentLength := 0, Location := [],
      AzureAsyncoperation := exampleOperation, Body := .ok [] }
    [reply202, reply202, replyInProgress] replySucceeded []
    (by decide) rfl (by decide) (by decide) (by decide) (by decide) (by decide)
    (by decide)).2 rfl

/-- C4: on the asynchronous-operation path, a poll reply that is not a 202
and whose non-empty body parses to a value with a `status` other than
`InProgress` and `Succeeded` ends the polling: no result is returned and the
error message is `Create <body> failed: <payload>`, which contains the raw
payload of that reply. -/
theorem C4_failed_status_error {J : Type} (E : Env J)
    (method version domain baseUrl body : Str) (w : World) (resp : Response)
    (seq : List Reply) (presp : Response) (data : Str) (j : J) (rest : List Reply)
    (hreq : E.NewRequest method (requestURL version domain baseUrl) = none)
    (hw : w.replies = .ok resp :: (seq ++ .ok presp :: rest))
    (h404 : resp.StatusCode ≠ 404)
    (hasync : resp.AzureAsyncoperation.length > 0)
    (henter : resp.Location.length > 0 ∨ resp.StatusCode ≠ 200)
    (hpoll : E.NewRequest "GET".toList resp.AzureAsyncoperation = none)
    (hseq : ∀ r ∈ seq, isAccepted r = true ∨ hasStatus E "InProgress".toList r = true)
    (h202 : presp.StatusCode ≠ 202) (hlen : presp.ContentLength ≠ 0)
    (hb : presp.Body = .ok data) (hp : E.json.Parse data = .ok j)
    (hc : E.json.Contains j "status".toList = true)
    (h1 : (E.json.GetString j "status".toList).1 ≠ "InProgress".toList)
    (h2 : (E.json.GetString j "status".toList).1 ≠ "Succeeded".toList) :
    _jsonRequest E method version domain baseUrl body w =
        ({ replies := rest,
           sent := w.sent ++ firstRequest method version domain baseUrl body ::
             List.replicate (seq.length + 1) (pollRequest resp.AzureAsyncoperation) },
          some (.error (.Errorf ("Create ".toList ++ body ++ " failed: ".toList ++ data)))) ∧
      data <:+: ("Create ".toList ++ body ++ " failed: ".toList ++ data) := by
  have hcond : resp.Location.length > 0 ∨
      (resp.AzureAsyncoperation.length > 0 ∧ resp.StatusCode ≠ 200) :=
    henter.imp id (fun h => ⟨hasync, h⟩)
  refine ⟨?_, ?_⟩
  · rw [_jsonRequest_reply E method version domain baseUrl body w resp _ hreq hw,
      if_neg h404, if_pos hcond, if_pos hasync,
      pollLoop_failed E resp.AzureAsyncoperation resp.AzureAsyncoperation body hpoll hasync
        seq presp data j rest _ hseq h202 hlen hb hp hc h1 h2, append_singleton_append]
  · exact (List.suffix_append _ data).isInfix


set_option maxRecDepth 1000000 in
/-- C4, witness: the payload `{"status":"Failed","detail":"quota exceeded"}`
after a 202 and an `InProgress`; the message contains `quota exceeded`. -/
theorem C4_failed_status_error_witness :
    (_jsonRequest exampleEnv "PUT".toList "2018-06-01".toList exampleDomain
        "/subscriptions/s1/resourceGroups/g/providers/Microsoft.Compute/disks/d1".toList
        "\x7b\"name\":\"d1\"\x7d".toList
        { replies := [.ok { StatusCode := 201, ContentLength := 0, Location := [],
                            AzureAsyncoperation := exampleOperation, Body := .ok [] },
                      reply202, replyInProgress, replyFailed, reply202],
          sent := [] }).2 =
      some (.error (.Errorf ("Create ".toList ++ "\x7b\"name\":\"d1\"\x7d".toList ++
        " failed: ".toList ++
        "\x7b\"status\":\"Failed\",\"detail\":\"quota exceeded\"\x7d".toList))) ∧
    "quota exceeded".toList <:+: ("Create ".toList ++ "\x7b\"name\":\"d1\"\x7d".toList ++
        " failed: ".toList ++
        "\x7b\"status\":\"Failed\",\"detail\":\"quota exceeded\"\x7d".toList) :=
  ⟨congrArg Prod.snd
    (C4_failed_status_error exampleEnv "PUT".toList "2018-06-01".toList exampleDomain
      "/subscriptions/s1/resourceGroups/g/providers/Microsoft.Compute/disks/d1".toList
      "\x7b\"name\":\"d1\"\x7d".toList
      { replies := [.ok { StatusCode := 201, ContentLength := 0, Location := [],
                          AzureAsyncoperation := exampleOperation, Body := .ok [] },
                    reply202, replyInProgress, replyFailed, reply202],
        sent := [] }
      { StatusCode := 201, ContentLength := 0, Location := [],
        AzureAsyncoperation := exampleOperation, Body := .ok [] }
      [reply202, replyInProgress]
      (plainResponse 200 "\x7b\"status\":\"Failed\",\"detail\":\"quota exceeded\"\x7d".toList)
      "\x7b\"status\":\"Failed\",\"detail\":\"quota exceeded\"\x7d".toList
      [("status".toList, "Failed".toList), ("detail".toList, "quota exceeded".toList)]
      [reply202]
      (by decide) rfl (by decide) (by decide) (by decide) (by decide) (by decide)
      (by decide) (by decide) rfl (by decide) (by decide) (by decide) (by decide)).1,
   by decide⟩

/-- While polling, the requests `_jsonRequest` has sent are those of its loop. -/
theorem _jsonRequest_polling_sent {J : Type} (E : Env J)
    (method version domain baseUrl body : Str) (w : World) (resp : Response)
    (rest : List Reply)
    (hreq : E.NewRequest method (requestURL version domain baseUrl) = none)
    (hw : w.replies = .ok resp :: rest) (h404 : resp.StatusCode ≠ 404)
    (hcond : resp.Location.length > 0 ∨
      (resp.AzureAsyncoperation.length > 0 ∧ resp.StatusCode ≠ 200)) :
    (_jsonRequest E method version domain baseUrl body w).1.sent =
      (pollLoop E
        (if resp.AzureAsyncoperation.length > 0 then resp.AzureAsyncoperation
          else resp.Location)
        resp.AzureAsyncoperation body rest
        (w.sent ++ [firstRequest method version domain baseUrl body])).2.1 := by
  rw [_jsonRequest_reply E method version domain baseUrl body w resp rest hreq hw,
    if_neg h404, if_pos hcond]
  generalize pollLoop E _ resp.AzureAsyncoperation body rest _ = p
  rcases p with ⟨replies, sent, (_ | (_ | _))⟩ <;> rfl

/-- Without polling, `_jsonRequest` decodes the first response. -/
theorem _jsonRequest_sync {J : Type} (E : Env J)
    (method version domain baseUrl body : Str) (w : World) (resp : Response)
    (rest : List Reply)
    (hreq : E.NewRequest method (requestURL version domain baseUrl) = none)
    (hw : w.replies = .ok resp :: rest) (h404 : resp.StatusCode ≠ 404)
    (hcond : ¬ (resp.Location.length > 0 ∨
      (resp.AzureAsyncoperation.length > 0 ∧ resp.StatusCode ≠ 200))) :
    _jsonRequest E method version domain baseUrl body w =
      ({ replies := rest,
         sent := w.sent ++ [firstRequest method version domain baseUrl body] },
        some (decodeResponse E resp)) := by
  rw [_jsonRequest_reply E method version domain baseUrl body w resp rest hreq hw,
    if_neg h404, if_neg hcond]

/-- C5: after a first response that is not a 404, `_jsonRequest` polls (sends
a request beyond its first one) exactly when the `Location` header is
non-empty, or the `Azure-Asyncoperation` header is non-empty and the status
is not 200; a 200 that carries only an `Azure-Asyncoperation` header is
decoded at once, with no poll. -/
theorem C5_polls_iff {J : Type} (E : Env J)
    (method version domain baseUrl body : Str) (w : World) (resp : Response)
    (rest : List Reply)
    (hreq : E.NewRequest method (requestURL version domain baseUrl) = none)
    (hw : w.replies = .ok resp :: rest) (h404 : resp.StatusCode ≠ 404)
    (hpoll : E.NewRequest "GET".toList
      (if resp.AzureAsyncoperation.length > 0 then resp.AzureAsyncoperation
        else resp.Location) = none) :
    (w.sent.length + 1 < (_jsonRequest E method version domain baseUrl body w).1.sent.length ↔
        (resp.Location.length > 0 ∨
          (resp.AzureAsyncoperation.length > 0 ∧ resp.StatusCode ≠ 200))) ∧
      (resp.StatusCode = 200 → resp.Location = [] →
        _jsonRequest E method version domain baseUrl body w =
          ({ replies := rest,
             sent := w.sent ++ [firstRequest method version domain baseUrl body] },
            some (decodeResponse E resp))) := by
  refine ⟨⟨?_, ?_⟩, ?_⟩
  · intro hlt
    by_contra hcond
    rw [_jsonRequest_sync E method version domain baseUrl body w resp rest hreq hw h404 hcond]
      at hlt
    simp at hlt
  · intro hcond
    rw [_jsonRequest_polling_sent E method version domain baseUrl body w resp rest hreq hw
      h404 hcond]
    obtain ⟨k, hk, hpos⟩ := pollLoop_sent E
      (if resp.AzureAsyncoperation.length > 0 then resp.AzureAsyncoperation
        else resp.Location)
      resp.AzureAsyncoperation body rest
      (w.sent ++ [firstRequest method version domain baseUrl body])
    have := hpos hpoll
    rw [hk]
    simp only [List.length_append, List.length_replicate, List.length_singleton]
    omega
  · intro h200 hloc
    apply _jsonRequest_sync E method version domain baseUrl body w resp rest hreq hw h404
    simp [h200, hloc]

/-- C6: the requests `_jsonRequest` sends after its first one are all polls
of one target, the `Azure-Asyncoperation` header when it is non-empty and the
`Location` header otherwise; when both headers are present and differ, no
poll goes to the `Location` value. -/
theorem C6_poll_target {J : Type} (E : Env J)
    (method version domain baseUrl body : Str) (w : World) (resp : Response)
    (rest : List Reply)
    (hreq : E.NewRequest method (requestURL version domain baseUrl) = none)
    (hw : w.replies = .ok resp :: rest) :
    ∃ k, (_jsonRequest E method version domain baseUrl body w).1.sent =
        w.sent ++ firstRequest method version domain baseUrl body ::
          List.replicate k (pollRequest
            (if resp.AzureAsyncoperation.length > 0 then resp.AzureAsyncoperation
              else resp.Location)) ∧
      (resp.AzureAsyncoperation.length > 0 → resp.Location ≠ resp.AzureAsyncoperation →
        ∀ q ∈ List.replicate k (pollRequest
            (if resp.AzureAsyncoperation.length > 0 then resp.AzureAsyncoperation
              else resp.Location)),
          q.method = "GET".toList ∧ q.url = resp.AzureAsyncoperation ∧
            q.url ≠ resp.Location) := by
  have hsecond : ∀ k, resp.AzureAsyncoperation.length > 0 →
      resp.Location ≠ resp.AzureAsyncoperation →
      ∀ q ∈ List.replicate k (pollRequest
          (if resp.AzureAsyncoperation.length > 0 then resp.AzureAsyncoperation
            else resp.Location)),
        q.method = "GET".toList ∧ q.url = resp.AzureAsyncoperation ∧
          q.url ≠ resp.Location := by
    intro k hasync hne q hq
    rw [if_pos hasync] at hq
    rw [(List.mem_replicate.mp hq).2]
    exact ⟨rfl, rfl, fun h => hne h.symm⟩
  by_cases h404 : resp.StatusCode = 404
  · refine ⟨0, ?_, hsecond 0⟩
    rw [_jsonRequest_404 E method version domain baseUrl body w resp rest hreq hw h404]
    rfl
  · by_cases hcond : resp.Location.length > 0 ∨
        (resp.AzureAsyncoperation.length > 0 ∧ resp.StatusCode ≠ 200)
    · obtain ⟨k, hk, _⟩ := pollLoop_sent E
        (if resp.AzureAsyncoperation.length > 0 then resp.AzureAsyncoperation
          else resp.Location)
        resp.AzureAsyncoperation body rest
        (w.sent ++ [firstRequest method version domain baseUrl body])
      refine ⟨k, ?_, hsecond k⟩
      rw [_jsonRequest_polling_sent E method version domain baseUrl body w resp rest hreq hw
        h404 hcond, hk, append_singleton_append]
    · refine ⟨0, ?_, hsecond 0⟩
      rw [_jsonRequest_sync E method version domain baseUrl body w resp rest hreq hw h404
        hcond]
      rfl


set_option maxRecDepth 1000000 in
/-- C5, witness: a 200 with a body and only an `Azure-Asyncoperation` header
is decoded at once; the poll reply that follows is not consumed. -/
theorem C5_polls_iff_witness :
    _jsonRequest exampleEnv "PUT".toList "2018-06-01".toList exampleDomain
        "/subscriptions/s1/resourceGroups/g/providers/Microsoft.Compute/disks/d1".toList
        "\x7b\"name\":\"d1\"\x7d".toList
        { replies := [.ok { StatusCode := 200, ContentLength := 10, Location := [],
                            AzureAsyncoperation := exampleOperation,
                            Body := .ok "\x7b\"id\":\"x\"\x7d".toList }, reply202],
          sent := [] } =
      ({ replies := [reply202],
         sent := [firstRequest "PUT".toList "2018-06-01".toList exampleDomain
           "/subscriptions/s1/resourceGroups/g/providers/Microsoft.Compute/disks/d1".toList
           "\x7b\"name\":\"d1\"\x7d".toList] },
        some (.ok [("id".toList, "x".toList)])) :=
  (C5_polls_iff exampleEnv "PUT".toList "2018-06-01".toList exampleDomain
    "/subscriptions/s1/resourceGroups/g/providers/Microsoft.Compute/disks/d1".toList
    "\x7b\"name\":\"d1\"\x7d".toList
    { replies := [.ok { StatusCode := 200, ContentLength := 10, Location := [],
                        AzureAsyncoperation := exampleOperation,
                        Body := .ok "\x7b\"id\":\"x\"\x7d".toList }, reply202],
      sent := [] }
    { StatusCode := 200, ContentLength := 10, Location := [],
      AzureAsyncoperation := exampleOperation, Body := .ok "\x7b\"id\":\"x\"\x7d".toList }
    [reply202] (by decide) rfl (by decide) (by decide)).2 rfl rfl

set_option maxRecDepth 1000000 in
/-- C6, witness: a 202 that carries both headers with different values; the
polls go to the `Azure-Asyncoperation` value. -/
theorem C6_poll_target_witness :
    ∃ k, (_jsonRequest exampleEnv "DELETE".toList "2018-06-01".toList exampleDomain
        "/subscriptions/s1/resourceGroups/g/providers/Microsoft.Compute/disks/d1".toList []
        { replies := [.ok { StatusCode := 202, ContentLength := 0,
                            Location := "https://management.azure.com/location/1".toList,
                            AzureAsyncoperation := exampleOperation, Body := .ok [] },
                      reply202, replySucceeded],
          sent := [] }).1.sent =
      firstRequest "DELETE".toList "2018-06-01".toList exampleDomain
        "/subscriptions/s1/resourceGroups/g/providers/Microsoft.Compute/disks/d1".toList [] ::
        List.replicate k (pollRequest exampleOperation) :=
  Exists.imp (fun _ h => h.1)
    (C6_poll_target exampleEnv "DELETE".toList "2018-06-01".toList exampleDomain
      "/subscriptions/s1/resourceGroups/g/providers/Microsoft.Compute/disks/d1".toList []
      { replies := [.ok { StatusCode := 202, ContentLength := 0,
                          Location := "https://management.azure.com/location/1".toList,
                          AzureAsyncoperation := exampleOperation, Body := .ok [] },
                    reply202, replySucceeded],
        sent := [] }
      { StatusCode := 202, ContentLength := 0,
        Location := "https://management.azure.com/location/1".toList,
        AzureAsyncoperation := exampleOperation, Body := .ok [] }
      [reply202, replySucceeded] (by decide) rfl)

/-- C7: when polling was entered through the `Location` header alone, the
first poll reply that is not a 202 ends the polling without error: with
content length zero the result is the empty dict, and with a body that
parses the result is the parsed value (whether or not it has a `status`
field). -/
theorem C7_location_path {J : Type} (E : Env J)
    (method version domain baseUrl body : Str) (w : World) (resp : Response)
    (seq : List Reply) (presp : Response) (rest : List Reply)
    (hreq : E.NewRequest method (requestURL version domain baseUrl) = none)
    (hw : w.replies = .ok resp :: (seq ++ .ok presp :: rest))
    (h404 : resp.StatusCode ≠ 404)
    (hloc : resp.Location.length > 0) (hnoasync : resp.AzureAsyncoperation = [])
    (hpoll : E.NewRequest "GET".toList resp.Location = none)
    (hseq : ∀ r ∈ seq, isAccepted r = true)
    (h202 : presp.StatusCode ≠ 202) :
    (presp.ContentLength = 0 →
      _jsonRequest E method version domain baseUrl body w =
        ({ replies := rest,
           sent := w.sent ++ firstRequest method version domain baseUrl body ::
             List.replicate (seq.length + 1) (pollRequest resp.Location) },
          some (.ok E.json.NewDict))) ∧
    (∀ (data : Str) (j : J), presp.ContentLength ≠ 0 → presp.Body = .ok data →
      E.json.Parse data = .ok j →
      _jsonRequest E method version domain baseUrl body w =
        ({ replies := rest,
           sent := w.sent ++ firstRequest method version domain baseUrl body ::
             List.replicate (seq.length + 1) (pollRequest resp.Location) },
          some (.ok j))) := by
  have hnot : ¬ (resp.AzureAsyncoperation.length > 0) := by simp [hnoasync]
  have hstart : _jsonRequest E method version domain baseUrl body w =
      match pollLoop E resp.Location resp.AzureAsyncoperation body (.ok presp :: rest)
        ((w.sent ++ [firstRequest method version domain baseUrl body]) ++
          List.replicate seq.length (pollRequest resp.Location)) with
      | (replies, sent, none) => ({ replies := replies, sent := sent }, none)
      | (replies, sent, some (.ret r)) => ({ replies := replies, sent := sent }, some r)
      | (replies, sent, some .brk) =>
        ({ replies := replies, sent := sent }, some (decodeResponse E resp)) := by
    rw [_jsonRequest_reply E method version domain baseUrl body w resp _ hreq hw,
      if_neg h404, if_pos (Or.inl hloc), if_neg hnot,
      pollLoop_keeps E resp.Location resp.AzureAsyncoperation body hpoll seq _ _
        (fun r hr => Or.inl (hseq r hr))]
  have hsent : ((w.sent ++ [firstRequest method version domain baseUrl body]) ++
      List.replicate seq.length (pollRequest resp.Location)) ++ [pollRequest resp.Location] =
      w.sent ++ firstRequest method version domain baseUrl body ::
        List.replicate (seq.length + 1) (pollRequest resp.Location) := by
    rw [List.append_assoc, ← List.replicate_succ', append_singleton_append]
  refine ⟨?_, ?_⟩
  · intro hzero
    rw [hstart, pollLoop]
    simp only [hpoll, h202, hzero, if_true, if_false, hsent]
  · intro data j hlen hb hp
    rw [hstart, pollLoop_parsed E resp.Location resp.AzureAsyncoperation body hpoll presp data
      j rest _ h202 hlen hb hp]
    simp only [hnot, false_and, if_false, hsent]


set_option maxRecDepth 1000000 in
/-- C7, witness: a 202 with a `Location` header only, then the poll replies
202 and a 200 with body `{"id":"x"}`. -/
theorem C7_location_path_witness :
    (_jsonRequest exampleEnv "DELETE".toList "2018-06-01".toList exampleDomain
        "/subscriptions/s1/resourceGroups/g/providers/Microsoft.Compute/disks/d1".toList []
        { replies := [.ok { StatusCode := 202, ContentLength := 0,
                            Location := exampleOperation,
                            AzureAsyncoperation := [], Body := .ok [] },
                      reply202, .ok (plainResponse 200 "\x7b\"id\":\"x\"\x7d".toList)],
          sent := [] }).2 = some (.ok [("id".toList, "x".toList)]) :=
  congrArg Prod.snd
    ((C7_location_path exampleEnv "DELETE".toList "2018-06-01".toList exampleDomain
      "/subscriptions/s1/resourceGroups/g/providers/Microsoft.Compute/disks/d1".toList []
      { replies := [.ok { StatusCode := 202, ContentLength := 0,
                          Location := exampleOperation,
                          AzureAsyncoperation := [], Body := .ok [] },
                    reply202, .ok (plainResponse 200 "\x7b\"id\":\"x\"\x7d".toList)],
        sent := [] }
      { StatusCode := 202, ContentLength := 0, Location := exampleOperation,
        AzureAsyncoperation := [], Body := .ok [] }
      [reply202] (plainResponse 200 "\x7b\"id\":\"x\"\x7d".toList) []
      (by decide) rfl (by decide) (by decide) rfl (by decide) (by decide) (by decide)).2
      "\x7b\"id\":\"x\"\x7d".toList [("id".toList, "x".toList)] (by decide) rfl (by decide))

set_option maxRecDepth 1000000 in
/-- C8, evaluation at the failing input: the body `{"error":"100%"}` of a 200
without polling headers parses to a value with an `error` field whose
serialized text is `{"error":"100%"}`, and the error returned carries the
message `{"error":"100%!"(MISSING)}`: the payload went through `fmt.Errorf`
as a format. -/
theorem C8_error_message_formatted :
    exampleJSON.Parse (stripCR "\x7b\"error\":\"100%\"\x7d".toList)
        = .ok [("error".toList, "100%".toList)] ∧
    exampleJSON.String [("error".toList, "100%".toList)] = "\x7b\"error\":\"100%\"\x7d".toList ∧
    (_jsonRequest exampleEnv "GET".toList AZURE_API_VERSION exampleDomain
        "/subscriptions/s1/resourceGroups/g".toList []
        { replies := [.ok (plainResponse 200 "\x7b\"error\":\"100%\"\x7d".toList)],
          sent := [] }).2 =
      some (.error (.Errorf "\x7b\"error\":\"100%!\"(MISSING)\x7d".toList)) := by
  decide

set_option maxRecDepth 1000000 in
/-- C9, evaluation at the failing input: `GetClassicInstance` with an empty
instance id asks `Get` for the path `?$expand=instanceView`; the `?` is at
position 0, so the version is appended with a second `?`. -/
theorem C9_leading_question_mark :
    Index "?$expand=instanceView".toList "?".toList = 0 ∧
    (SRegion.GetClassicInstance exampleEnv DEFAULT_API_VERSION (fun j => Except.ok j)
        exampleClient []
        { replies := [.ok (plainResponse 200 "\x7b\x7d".toList)], sent := [] }).world.sent =
      [{ method := "GET".toList,
         url := "https://management.azure.com/?$expand=instanceView?api-version=2016-02-01".toList,
         body := [],
         contentType := "application/json; charset=utf-8".toList }] := by
  decide

/-! ## Client construction -/

theorem Split_of_not_mem (s : Str) (sep : Char) (h : sep ∉ s) : Split s sep = [s] := by
  induction s with
  | nil => rfl
  | cons c cs ih =>
    have hc : ¬ c = sep := fun e => h (e ▸ List.mem_cons_self _ _)
    have hcs : sep ∉ cs := fun m => h (List.mem_cons_of_mem _ m)
    rw [Split, if_neg hc, ih hcs]

/-- C10: for a secret without `/`, `NewAzureClient` returns no client and an
Unauthorized error, and the remote side is left as it was: no request is
sent and `fetchRegions` is not reached. -/
theorem C10_secret_without_slash {J : Type} (E : Env J)
    (unmarshalRegions : J → Except Str (List SRegion))
    (providerId providerName accessKey secret envName : Str) (w : World)
    (h : '/' ∉ secret) :
    NewAzureClient E unmarshalRegions providerId providerName accessKey secret envName w =
      (w, some (.error (.Unauthorized
        "clientId、clientScret or subscriptId input error".toList))) := by
  unfold NewAzureClient
  simp [Split_of_not_mem secret '/' h]

/-- C10, witness: the secret `client-secret`. -/
theorem C10_secret_without_slash_witness :
    NewAzureClient exampleEnv (fun _ => Except.ok []) "p".toList "azure".toList
        "t1/s1".toList "client-secret".toList "AzurePublicCloud".toList
        { replies := [reply202], sent := [] } =
      ({ replies := [reply202], sent := [] },
        some (.error (.Unauthorized
          "clientId、clientScret or subscriptId input error".toList))) :=
  C10_secret_without_slash exampleEnv (fun _ => Except.ok []) "p".toList "azure".toList
    "t1/s1".toList "client-secret".toList "AzurePublicCloud".toList
    { replies := [reply202], sent := [] } (by decide)

end Azure
namespace Azure

/-! ## Preconditions of `Create`, `List` and `Update` -/

theorem getDefaultClient_subscriptionId {J : Type} (E : Env J) (self : SAzureClient) :
    (getDefaultClient E self).1.subscriptionId = self.subscriptionId := by
  unfold getDefaultClient
  split
  · rfl
  · split <;> rfl

/-- After a first response, the requests sent are the first request and
polls of one target. -/
theorem _jsonRequest_sent_polls {J : Type} (E : Env J)
    (method version domain baseUrl body : Str) (w : World) (resp : Response)
    (rest : List Reply)
    (hreq : E.NewRequest method (requestURL version domain baseUrl) = none)
    (hw : w.replies = .ok resp :: rest) :
    ∃ k, (_jsonRequest E method version domain baseUrl body w).1.sent =
      w.sent ++ firstRequest method version domain baseUrl body ::
        List.replicate k (pollRequest
          (if resp.AzureAsyncoperation.length > 0 then resp.AzureAsyncoperation
            else resp.Location)) := by
  by_cases h404 : resp.StatusCode = 404
  · refine ⟨0, ?_⟩
    rw [_jsonRequest_404 E method version domain baseUrl body w resp rest hreq hw h404]
    rfl
  · by_cases hcond : resp.Location.length > 0 ∨
        (resp.AzureAsyncoperation.length > 0 ∧ resp.StatusCode ≠ 200)
    · obtain ⟨k, hk, _⟩ := pollLoop_sent E
        (if resp.AzureAsyncoperation.length > 0 then resp.AzureAsyncoperation
          else resp.Location)
        resp.AzureAsyncoperation body rest
        (w.sent ++ [firstRequest method version domain baseUrl body])
      refine ⟨k, ?_⟩
      rw [_jsonRequest_polling_sent E method version domain baseUrl body w resp rest hreq hw
        h404 hcond, hk, append_singleton_append]
    · refine ⟨0, ?_⟩
      rw [_jsonRequest_sync E method version domain baseUrl body w resp rest hreq hw h404
        hcond]
      rfl

/-- The first request `_jsonRequest` sends, and the polls after it. -/
theorem _jsonRequest_sent_first {J : Type} (E : Env J)
    (method version domain baseUrl body : Str) (w : World)
    (hreq : E.NewRequest method (requestURL version domain baseUrl) = none) :
    ∃ more, (_jsonRequest E method version domain baseUrl body w).1.sent =
        w.sent ++ firstRequest method version domain baseUrl body :: more ∧
      ∀ q ∈ more, q.method = "GET".toList ∧ q.body = [] := by
  cases hw : w.replies with
  | nil =>
    refine ⟨[], ?_, by simp⟩
    unfold _jsonRequest Do
    simp only [hreq, hw]
  | cons r rest =>
    cases r with
    | error e =>
      refine ⟨[], ?_, by simp⟩
      unfold _jsonRequest Do
      simp only [hreq, hw]
    | ok resp =>
      obtain ⟨k, hk⟩ := _jsonRequest_sent_polls E method version domain baseUrl body w resp
        rest hreq hw
      refine ⟨_, hk, ?_⟩
      intro q hq
      rw [(List.mem_replicate.mp hq).2]
      exact ⟨rfl, rfl⟩

/-- When `http.NewRequest` refuses the first request nothing is sent. -/
theorem _jsonRequest_refused {J : Type} (E : Env J)
    (method version domain baseUrl body : Str) (w : World) (e : Str)
    (hreq : E.NewRequest method (requestURL version domain baseUrl) = some e) :
    _jsonRequest E method version domain baseUrl body w = (w, some (.error (.external e))) := by
  unfold _jsonRequest
  simp only [hreq]

/-- C11: on a client whose subscriptionId is empty, `Create` returns an
error and leaves the remote side as it was, for every body; once
`getDefaultClient` has succeeded the error is `Missing subscription info`. -/
theorem C11_create_without_subscription {J α : Type} (E : Env J)
    (defaultResourceGroups : List (Str × Str)) (unmarshal : J → Except Str α)
    (self : SAzureClient) (body : J) (w : World) (h : self.subscriptionId = []) :
    (∃ e, (SAzureClient.Create E defaultResourceGroups unmarshal self body w).result
        = some (.error e)) ∧
      (SAzureClient.Create E defaultResourceGroups unmarshal self body w).world = w ∧
      (∀ self1, getDefaultClient E self = (self1, .ok ()) →
        (SAzureClient.Create E defaultResourceGroups unmarshal self body w).result
          = some (.error (.Errorf "Missing subscription info".toList))) := by
  have hsub := getDefaultClient_subscriptionId E self
  unfold SAzureClient.Create
  rcases hg : getDefaultClient E self with ⟨self1, (e | u)⟩
  · refine ⟨⟨e, rfl⟩, rfl, ?_⟩
    intro self2 h2
    cases h2
  · rw [hg] at hsub
    have hz : self1.subscriptionId.length = 0 := by
      have : self1.subscriptionId = [] := hsub.trans h
      rw [this]; rfl
    simp only [hz, if_true]
    exact ⟨⟨_, rfl⟩, trivial, fun _ _ => trivial⟩

set_option maxRecDepth 1000000 in
/-- C11, witness: the example client without subscription id. -/
theorem C11_create_without_subscription_witness :
    (SAzureClient.Create exampleEnv exampleResourceGroups (fun j => Except.ok j)
        { exampleClient with subscriptionId := [] }
        [("type".toList, "Microsoft.Compute/disks".toList), ("name".toList, "d1".toList)]
        { replies := [reply202], sent := [] }).world
      = { replies := [reply202], sent := [] } :=
  (C11_create_without_subscription exampleEnv exampleResourceGroups (fun j => Except.ok j)
    { exampleClient with subscriptionId := [] }
    [("type".toList, "Microsoft.Compute/disks".toList), ("name".toList, "d1".toList)]
    { replies := [reply202], sent := [] } rfl).2.1


set_option maxRecDepth 1000000 in
/-- C12, counterexample: on a client without subscription id, `List` of
`locations` sends a GET of `/subscriptions` and returns the decoded listing
without error. -/
theorem C12_counterexample :
    (SAzureClient.ListResource listingEnv (UnmarshalValue listingEnv decodeName)
        { exampleClient with subscriptionId := [] } "locations".toList
        { replies := [.ok (plainResponse 200
            "\x7b\"value\":[\x7b\"name\":\"sub one\"\x7d]\x7d".toList)],
          sent := [] }).result = some (.ok ["sub one".toList]) ∧
    (SAzureClient.ListResource listingEnv (UnmarshalValue listingEnv decodeName)
        { exampleClient with subscriptionId := [] } "locations".toList
        { replies := [.ok (plainResponse 200
            "\x7b\"value\":[\x7b\"name\":\"sub one\"\x7d]\x7d".toList)],
          sent := [] }).world.sent =
      [{ method := "GET".toList,
         url := "https://management.azure.com//subscriptions?api-version=2016-02-01".toList,
         body := [],
         contentType := "application/json; charset=utf-8".toList }] := by
  decide

/-- C12, amended: on a client whose subscriptionId is empty, `List` fails
without a request only when `getDefaultClient` fails; once it has succeeded
(and `http.NewRequest` accepts the URL) `List` sends, whatever the resource
argument, a GET of `/subscriptions` on the domain with `AZURE_API_VERSION`,
followed only by polls, and it returns what that request and the decoding
give: for a reply that is not a 404, has no polling header and decodes to a
body that `unmarshal` accepts, the decoded value and no error. -/
theorem C12_list_without_subscription {J α : Type} (E : Env J)
    (unmarshal : J → Except Str α) (self self1 : SAzureClient) (golbalResource : Str)
    (w : World) (h : self.subscriptionId = []) :
    (∀ e, getDefaultClient E self = (self1, .error e) →
      (SAzureClient.ListResource E unmarshal self golbalResource w).result
          = some (.error e) ∧
        (SAzureClient.ListResource E unmarshal self golbalResource w).world = w) ∧
    (getDefaultClient E self = (self1, .ok ()) →
      E.NewRequest "GET".toList
        (requestURL AZURE_API_VERSION self1.domain "/subscriptions".toList) = none →
      (∃ more, (SAzureClient.ListResource E unmarshal self golbalResource w).world.sent =
          w.sent ++ firstRequest "GET".toList AZURE_API_VERSION self1.domain
            "/subscriptions".toList [] :: more ∧
        ∀ q ∈ more, q.method = "GET".toList ∧ q.body = []) ∧
      (SAzureClient.ListResource E unmarshal self golbalResource w).world =
        (_jsonRequest E "GET".toList AZURE_API_VERSION self1.domain
          "/subscriptions".toList [] w).1 ∧
      (SAzureClient.ListResource E unmarshal self golbalResource w).result =
        decodeWith unmarshal
          (_jsonRequest E "GET".toList AZURE_API_VERSION self1.domain
            "/subscriptions".toList [] w).2 ∧
      (∀ (resp : Response) (rest : List Reply) (j : J) (v : α),
        w.replies = .ok resp :: rest → resp.StatusCode ≠ 404 →
        resp.Location = [] → resp.AzureAsyncoperation = [] →
        decodeResponse E resp = .ok j → unmarshal j = .ok v →
        (SAzureClient.ListResource E unmarshal self golbalResource w).result
            = some (.ok v) ∧
          (SAzureClient.ListResource E unmarshal self golbalResource w).world =
            { replies := rest,
              sent := w.sent ++ [firstRequest "GET".toList AZURE_API_VERSION self1.domain
                "/subscriptions".toList []] })) := by
  have hsub := getDefaultClient_subscriptionId E self
  refine ⟨?_, ?_⟩
  · intro e hg
    unfold SAzureClient.ListResource
    simp only [hg]
    exact ⟨trivial, trivial⟩
  · intro hg hreq
    rw [hg] at hsub
    have hz : self1.subscriptionId = [] := hsub.trans h
    obtain ⟨more, hmore, hall⟩ := _jsonRequest_sent_first E "GET".toList AZURE_API_VERSION
      self1.domain "/subscriptions".toList [] w hreq
    have hworld : (SAzureClient.ListResource E unmarshal self golbalResource w).world =
        (_jsonRequest E "GET".toList AZURE_API_VERSION self1.domain
          "/subscriptions".toList [] w).1 := by
      unfold SAzureClient.ListResource
      simp only [hg, hz, List.length_nil, gt_iff_lt, lt_self_iff_false, false_and, if_false,
        jsonRequest]
      rcases _jsonRequest E "GET".toList AZURE_API_VERSION self1.domain
        "/subscriptions".toList [] w with ⟨w1, (_ | (e | b))⟩
      · rfl
      · rfl
      · cases hu : unmarshal b <;> simp only [hu]
    have hresult : (SAzureClient.ListResource E unmarshal self golbalResource w).result =
        decodeWith unmarshal
          (_jsonRequest E "GET".toList AZURE_API_VERSION self1.domain
            "/subscriptions".toList [] w).2 := by
      unfold SAzureClient.ListResource
      simp only [hg, hz, List.length_nil, gt_iff_lt, lt_self_iff_false, false_and, if_false,
        jsonRequest]
      rcases _jsonRequest E "GET".toList AZURE_API_VERSION self1.domain
        "/subscriptions".toList [] w with ⟨w1, (_ | (e | b))⟩
      · rfl
      · rfl
      · cases hu : unmarshal b <;> simp only [hu, decodeWith]
    refine ⟨⟨more, ?_, hall⟩, hworld, hresult, ?_⟩
    · rw [hworld]
      exact hmore
    · intro resp rest j v hw h404 hloc hasync hdec hun
      have hcond : ¬ (resp.Location.length > 0 ∨
          (resp.AzureAsyncoperation.length > 0 ∧ resp.StatusCode ≠ 200)) := by
        simp [hloc, hasync]
      have hr := _jsonRequest_sync E "GET".toList AZURE_API_VERSION self1.domain
        "/subscriptions".toList [] w resp rest hreq hw h404 hcond
      rw [hresult, hworld, hr, hdec]
      simp only [decodeWith, hun]
      exact ⟨trivial, trivial⟩

set_option maxRecDepth 1000000 in
/-- C12, witness: the example client without subscription id, answered with
a listing of one element; the GET of `/subscriptions` is the only request
and the decoded listing is returned. -/
theorem C12_list_without_subscription_witness :
    (SAzureClient.ListResource listingEnv (UnmarshalValue listingEnv decodeName)
        { exampleClient with subscriptionId := [] } "locations".toList
        { replies := [.ok (plainResponse 200
            "\x7b\"value\":[\x7b\"name\":\"sub one\"\x7d]\x7d".toList)],
          sent := [] }).result = some (.ok ["sub one".toList]) ∧
    (SAzureClient.ListResource listingEnv (UnmarshalValue listingEnv decodeName)
        { exampleClient with subscriptionId := [] } "locations".toList
        { replies := [.ok (plainResponse 200
            "\x7b\"value\":[\x7b\"name\":\"sub one\"\x7d]\x7d".toList)],
          sent := [] }).world =
      { replies := [],
        sent := [] ++ [firstRequest "GET".toList AZURE_API_VERSION exampleDomain
          "/subscriptions".toList []] } :=
  ((C12_list_without_subscription listingEnv (UnmarshalValue listingEnv decodeName)
      { exampleClient with subscriptionId := [] }
      { exampleClientReady with subscriptionId := [] } "locations".toList
      { replies := [.ok (plainResponse 200
          "\x7b\"value\":[\x7b\"name\":\"sub one\"\x7d]\x7d".toList)],
        sent := [] } rfl).2 (by decide) (by decide)).2.2.2
    (plainResponse 200 "\x7b\"value\":[\x7b\"name\":\"sub one\"\x7d]\x7d".toList) []
    (ListingJSON.listing [[("name".toList, "sub one".toList)]]) ["sub one".toList]
    rfl (by decide) rfl rfl (by decide) (by decide)


/-- C13: `Create` returns an error and sends nothing when `GetString` fails
on the field `type`, when the type is not a key of `defaultResourceGroups`,
or when `GetString` fails on the field `name`. When the three hold, the
subscription id is non-empty and `getDefaultClient` has succeeded, the
request is a PUT of the serialized body to
`/subscriptions/<subscriptionId>/resourceGroups/<group>/providers/<type>/<name>`,
followed only by polls. -/
theorem C13_create_requests {J α : Type} (E : Env J)
    (defaultResourceGroups : List (Str × Str)) (unmarshal : J → Except Str α)
    (self : SAzureClient) (body : J) (w : World) :
    (((E.json.GetString body "type".toList).2 ≠ none ∨
        mapGet defaultResourceGroups (E.json.GetString body "type".toList).1 = none ∨
        (E.json.GetString body "name".toList).2 ≠ none) →
      (∃ e, (SAzureClient.Create E defaultResourceGroups unmarshal self body w).result
          = some (.error e)) ∧
        (SAzureClient.Create E defaultResourceGroups unmarshal self body w).world = w) ∧
    (∀ (self1 : SAzureClient) (resourceGroupName : Str),
      getDefaultClient E self = (self1, .ok ()) →
      self.subscriptionId ≠ [] →
      (E.json.GetString body "type".toList).2 = none →
      mapGet defaultResourceGroups (E.json.GetString body "type".toList).1
        = some resourceGroupName →
      (E.json.GetString body "name".toList).2 = none →
      E.NewRequest "PUT".toList
        (requestURL (createVersion (E.json.GetString body "type".toList).1) self1.domain
          (createPath self.subscriptionId resourceGroupName
            (E.json.GetString body "type".toList).1
            (E.json.GetString body "name".toList).1)) = none →
      ∃ more, (SAzureClient.Create E defaultResourceGroups unmarshal self body w).world.sent =
          w.sent ++ firstRequest "PUT".toList
            (createVersion (E.json.GetString body "type".toList).1) self1.domain
            (createPath self.subscriptionId resourceGroupName
              (E.json.GetString body "type".toList).1
              (E.json.GetString body "name".toList).1)
            (E.json.String body) :: more ∧
        ∀ q ∈ more, q.method = "GET".toList ∧ q.body = []) := by
  have hsub := getDefaultClient_subscriptionId E self
  refine ⟨?_, ?_⟩
  · intro hmiss
    unfold SAzureClient.Create
    rcases hg : getDefaultClient E self with ⟨self1, (e | u)⟩
    · exact ⟨⟨e, rfl⟩, rfl⟩
    · simp only
      split
      · exact ⟨⟨_, rfl⟩, rfl⟩
      · rcases ht : E.json.GetString body "type".toList with ⟨type, (_ | err)⟩
        · simp only
          rw [ht] at hmiss
          cases hm : mapGet defaultResourceGroups type with
          | none => exact ⟨⟨_, rfl⟩, rfl⟩
          | some rg =>
            simp only
            rcases hn : E.json.GetString body "name".toList with ⟨name, (_ | err)⟩
            · rw [hn] at hmiss
              simp [hm] at hmiss
            · exact ⟨⟨_, rfl⟩, rfl⟩
        · exact ⟨⟨_, rfl⟩, rfl⟩
  · intro self1 rg hg hne ht hm hn hreq
    rw [hg] at hsub
    have hz : ¬ (self.subscriptionId.length = 0) := fun h0 => hne (List.length_eq_zero.mp h0)
    have hs : self1.subscriptionId = self.subscriptionId := hsub
    obtain ⟨more, hmore, hall⟩ := _jsonRequest_sent_first E "PUT".toList
      (createVersion (E.json.GetString body "type".toList).1) self1.domain
      (createPath self.subscriptionId rg (E.json.GetString body "type".toList).1
        (E.json.GetString body "name".toList).1) (E.json.String body) w hreq
    refine ⟨more, ?_, hall⟩
    unfold SAzureClient.Create
    rcases ht' : E.json.GetString body "type".toList with ⟨type, terr⟩
    rcases hn' : E.json.GetString body "name".toList with ⟨name, nerr⟩
    rw [ht'] at ht hm hmore
    rw [hn'] at hn hmore
    simp only at ht hn hm hmore
    subst ht
    subst hn
    simp only [hg, hz, if_false, hm, hs, jsonRequest]
    rcases hr : _jsonRequest E "PUT".toList (createVersion type) self1.domain
      (createPath self.subscriptionId rg type name) (E.json.String body) w
      with ⟨w1, (_ | (e | b))⟩
    · rw [hr] at hmore; exact hmore
    · rw [hr] at hmore; exact hmore
    · rw [hr] at hmore
      cases hu : unmarshal b <;> simp only [hu] <;> exact hmore

set_option maxRecDepth 1000000 in
/-- C13, witness: a disk body with `type` and `name`; the PUT goes to the
path of the disk in the resource group of its type. -/
theorem C13_create_requests_witness :
    createPath "s1".toList "YunionResourceGroup".toList "Microsoft.Compute/disks".toList
        "d1".toList =
      ("/subscriptions/s1/resourceGroups/YunionResourceGroup/providers/" ++
        "Microsoft.Compute/disks/d1").toList ∧
    ∃ more, (SAzureClient.Create exampleEnv exampleResourceGroups (fun j => Except.ok j)
        exampleClient
        [("type".toList, "Microsoft.Compute/disks".toList), ("name".toList, "d1".toList)]
        { replies := [], sent := [] }).world.sent =
      firstRequest "PUT".toList "2018-06-01".toList exampleDomain
        (createPath "s1".toList "YunionResourceGroup".toList
          "Microsoft.Compute/disks".toList "d1".toList)
        "\x7b\"type\":\"Microsoft.Compute/disks\",\"name\":\"d1\"\x7d".toList :: more :=
  ⟨by decide,
   Exists.imp (fun _ hm => hm.1)
    ((C13_create_requests exampleEnv exampleResourceGroups (fun j => Except.ok j)
      exampleClient
      [("type".toList, "Microsoft.Compute/disks".toList), ("name".toList, "d1".toList)]
      { replies := [], sent := [] }).2 exampleClientReady "YunionResourceGroup".toList
      (by decide) (by decide) (by decide) (by decide) (by decide) (by decide))⟩


set_option maxRecDepth 1000000 in
/-- C14, evaluation at the failing input: the body `{"name":"d1"}` has no
`id` field and `GetString` reports it, yet `Update` sends a PUT of the body
to the bare domain and returns the decoded reply without error. -/
theorem C14_update_without_id :
    exampleJSON.Contains [("name".toList, "d1".toList)] "id".toList = false ∧
    (exampleJSON.GetString [("name".toList, "d1".toList)] "id".toList).2
      = some "key not found".toList ∧
    (SAzureClient.Update exampleEnv DEFAULT_API_VERSION exampleClient
        [("name".toList, "d1".toList)]
        { replies := [.ok (plainResponse 200 "\x7b\x7d".toList)], sent := [] }).world.sent =
      [{ method := "PUT".toList,
         url := "https://management.azure.com/?api-version=2016-02-01".toList,
         body := "\x7b\"name\":\"d1\"\x7d".toList,
         contentType := "application/json; charset=utf-8".toList }] ∧
    (SAzureClient.Update exampleEnv DEFAULT_API_VERSION exampleClient
        [("name".toList, "d1".toList)]
        { replies := [.ok (plainResponse 200 "\x7b\x7d".toList)], sent := [] }).result =
      some (.ok []) := by
  decide

/-! ## Listings -/

theorem decodeAll_ok {J α : Type} (decode : J → Except Str α) (es : List J)
    (hdec : ∀ e ∈ es, ∃ d, decode e = .ok d) :
    ∃ ds, decodeAll decode es = .ok ds ∧
      List.Forall₂ (fun e d => decode e = .ok d) es ds := by
  induction es with
  | nil => exact ⟨[], rfl, List.Forall₂.nil⟩
  | cons e es ih =>
    obtain ⟨d, hd⟩ := hdec e (List.mem_cons_self _ _)
    obtain ⟨ds, hds, hall⟩ := ih (fun x hx => hdec x (List.mem_cons_of_mem _ hx))
    refine ⟨d :: ds, ?_, List.Forall₂.cons hd hall⟩
    rw [decodeAll]
    simp only [hd, hds]

/-- The decoder on a non-empty body that parses to a value without `error`. -/
theorem decodeResponse_value {J : Type} (E : Env J) (resp : Response) (data : Str) (j : J)
    (hlen : resp.ContentLength ≠ 0) (hb : resp.Body = .ok data)
    (hp : E.json.Parse (stripCR data) = .ok j)
    (herr : E.json.Contains j "error".toList = false) :
    decodeResponse E resp = .ok j := by
  unfold decodeResponse
  simp only [hlen, if_false, hb, hp, herr, Bool.false_eq_true]

/-- C15: for a listing payload returned with a status other than 404, without
polling headers and without a top-level `error` field, whose `value` array
holds the elements `es`, each of which decodes, `ListAll` returns exactly the
decoded elements: one per element of `es`, in the same order (an empty array
gives an empty sequence). -/
theorem C15_listAll_elements {J α : Type} (E : Env J) (decode : J → Except Str α)
    (self self1 : SAzureClient) (resourceType : Str) (w : World) (resp : Response)
    (rest : List Reply) (data : Str) (j : J) (es : List J)
    (hg : getDefaultClient E self = (self1, .ok ()))
    (hreq : E.NewRequest "GET".toList
      (requestURL (listAllVersion resourceType) self1.domain
        (listAllPath self1.subscriptionId resourceType)) = none)
    (hw : w.replies = .ok resp :: rest) (h404 : resp.StatusCode ≠ 404)
    (hloc : resp.Location = []) (hasync : resp.AzureAsyncoperation = [])
    (hlen : resp.ContentLength ≠ 0) (hb : resp.Body = .ok data)
    (hp : E.json.Parse (stripCR data) = .ok j)
    (herr : E.json.Contains j "error".toList = false)
    (harr : E.json.GetArray j "value".toList = .ok es)
    (hdec : ∀ e ∈ es, ∃ d, decode e = .ok d) :
    ∃ ds, (SAzureClient.ListAll E (UnmarshalValue E decode) self resourceType w).result
        = some (.ok ds) ∧
      List.Forall₂ (fun e d => decode e = .ok d) es ds ∧
      ds.length = es.length ∧
      (es = [] → ds = []) := by
  obtain ⟨ds, hds, hall⟩ := decodeAll_ok decode es hdec
  have hcond : ¬ (resp.Location.length > 0 ∨
      (resp.AzureAsyncoperation.length > 0 ∧ resp.StatusCode ≠ 200)) := by
    simp [hloc, hasync]
  have hr := _jsonRequest_sync E "GET".toList (listAllVersion resourceType) self1.domain
    (listAllPath self1.subscriptionId resourceType) [] w resp rest hreq hw h404 hcond
  rw [decodeResponse_value E resp data j hlen hb hp herr] at hr
  have hu : UnmarshalValue E decode j = .ok ds := by
    unfold UnmarshalValue
    simp only [harr, hds]
  refine ⟨ds, ?_, hall, hall.length_eq.symm, ?_⟩
  · unfold SAzureClient.ListAll
    simp only [hg, jsonRequest, hr, hu]
  · intro he
    subst he
    cases hall
    rfl

set_option maxRecDepth 1000000 in
/-- C15, witness: a listing of two disks; the names come back in order. -/
theorem C15_listAll_elements_witness :
    ∃ ds, (SAzureClient.ListAll listingEnv (UnmarshalValue listingEnv decodeName)
        exampleClient "Microsoft.Compute/disks".toList
        { replies := [.ok (plainResponse 200
            "\x7b\"value\":[\x7b\"name\":\"d1\"\x7d,\x7b\"name\":\"d2\"\x7d]\x7d".toList)],
          sent := [] }).result = some (.ok ds) ∧
      List.Forall₂ (fun e d => decodeName e = .ok d)
        [ListingJSON.object [("name".toList, "d1".toList)],
         ListingJSON.object [("name".toList, "d2".toList)]] ds :=
  Exists.imp (fun _ h => ⟨h.1, h.2.1⟩)
    (C15_listAll_elements listingEnv decodeName exampleClient exampleClientReady
      "Microsoft.Compute/disks".toList
      { replies := [.ok (plainResponse 200
          "\x7b\"value\":[\x7b\"name\":\"d1\"\x7d,\x7b\"name\":\"d2\"\x7d]\x7d".toList)],
        sent := [] }
      (plainResponse 200
        "\x7b\"value\":[\x7b\"name\":\"d1\"\x7d,\x7b\"name\":\"d2\"\x7d]\x7d".toList)
      []
      "\x7b\"value\":[\x7b\"name\":\"d1\"\x7d,\x7b\"name\":\"d2\"\x7d]\x7d".toList
      (ListingJSON.listing [[("name".toList, "d1".toList)], [("name".toList, "d2".toList)]])
      [ListingJSON.object [("name".toList, "d1".toList)],
       ListingJSON.object [("name".toList, "d2".toList)]]
      (by decide) (by decide) rfl (by decide) rfl rfl (by decide) rfl (by decide)
      (by decide) (by decide)
      (by
        intro e he
        rcases List.mem_cons.mp he with rfl | he
        · exact ⟨"d1".toList, by decide⟩
        · rcases List.mem_cons.mp he with rfl | he
          · exact ⟨"d2".toList, by decide⟩
          · cases he))


/-! ## Iteration order of the version table -/

set_option maxRecDepth 1000000 in
/-- C16, evaluation at the failing input: `Get` on one virtual-network id,
answered by the same remote side, sends the api-version `2018-06-01` when the
`range` visits the table in the order of the source text and `2018-08-01`
when it visits it in the reverse order. -/
theorem C16_get_depends_on_order :
    DEFAULT_API_VERSION.reverse.Perm DEFAULT_API_VERSION ∧
    (SAzureClient.Get exampleEnv DEFAULT_API_VERSION (fun j => Except.ok j) exampleClient
        exampleNetworkId
        { replies := [.ok (plainResponse 200 "\x7b\x7d".toList)],
          sent := [] }).world.sent.map Request.url =
      [exampleDomain ++ exampleNetworkId ++ "?api-version=2018-06-01".toList] ∧
    (SAzureClient.Get exampleEnv DEFAULT_API_VERSION.reverse (fun j => Except.ok j)
        exampleClient exampleNetworkId
        { replies := [.ok (plainResponse 200 "\x7b\x7d".toList)],
          sent := [] }).world.sent.map Request.url =
      [exampleDomain ++ exampleNetworkId ++ "?api-version=2018-08-01".toList] :=
  ⟨List.reverse_perm _, by decide, by decide⟩

theorem indexFrom_ge (sub s : Str) (i : Nat) :
    indexFrom sub s i = -1 ∨ (i : Int) ≤ indexFrom sub s i := by
  induction s generalizing i with
  | nil =>
    rw [indexFrom]
    split
    · right; exact le_refl _
    · left; rfl
  | cons c cs ih =>
    rw [indexFrom]
    split
    · right; exact le_refl _
    · rcases ih (i + 1) with h | h
      · left; exact h
      · right
        have : (i : Int) ≤ ((i + 1 : Nat) : Int) := by omega
        exact le_trans this h

/-- A key whose first character differs from the first character of the
text is found past position 0 or not at all. -/
theorem Index_pos_iff_of_head_ne (c d : Char) (cs ds : Str) (h : d ≠ c) :
    Index (c :: cs) (d :: ds) > 0 ↔ Index (c :: cs) (d :: ds) ≠ -1 := by
  have hpre : (d :: ds).isPrefixOf (c :: cs) = false := by
    simp [List.isPrefixOf, h]
  unfold Index
  rw [indexFrom]
  simp only [hpre, Bool.false_eq_true, if_false]
  rcases indexFrom_ge (d :: ds) cs (0 + 1) with h1 | h1
  · rw [h1]; decide
  · constructor
    · intro _ hneg
      rw [hneg] at h1
      omega
    · intro _
      omega

/-- The scan ends with the version of the last entry that matches. -/
theorem foldl_scanStep_last (lower : Char → Char) (url : Str) (order : List (Str × Str))
    (init : Str)
    (h : ∀ e ∈ order, (Index (ToLower lower url) (ToLower lower e.1) > 0 ↔
      containsKey lower url e = true)) :
    order.foldl (scanStep lower url) init =
      match (order.filter (containsKey lower url)).getLast? with
      | some entry => entry.2
      | none => init := by
  induction order generalizing init with
  | nil => rfl
  | cons a l ih =>
    have hl : ∀ e ∈ l, (Index (ToLower lower url) (ToLower lower e.1) > 0 ↔
        containsKey lower url e = true) := fun e he => h e (List.mem_cons_of_mem _ he)
    rw [List.foldl_cons, ih _ hl]
    by_cases ha : containsKey lower url a = true
    · have hpos := (h a (List.mem_cons_self _ _)).mpr ha
      rw [List.filter_cons_of_pos ha, List.getLast?_cons]
      cases hf : (l.filter (containsKey lower url)).getLast? with
      | none => simp [scanStep, hpos]
      | some e => simp
    · have hneg : ¬ Index (ToLower lower url) (ToLower lower a.1) > 0 :=
        fun hp => ha ((h a (List.mem_cons_self _ _)).mp hp)
      rw [List.filter_cons_of_neg ha]
      cases hf : (l.filter (containsKey lower url)).getLast? with
      | none => simp [scanStep, hneg]
      | some e => simp

set_option maxRecDepth 1000000 in
theorem table_keys_head : ∀ e ∈ DEFAULT_API_VERSION, ∃ tail, e.1 = 'M' :: tail := by
  intro e he
  have h : ∀ e ∈ DEFAULT_API_VERSION, e.1.head? = some 'M' := by decide
  have := h e he
  cases hk : e.1 with
  | nil => rw [hk] at this; cases this
  | cons c tail =>
    rw [hk] at this
    simp at this
    exact ⟨tail, by rw [this]⟩

set_option maxRecDepth 1000000 in
/-- C17: in every iteration order of the table and for every input that
begins with `/`, the scan of `Get` and `jsonRequest` chooses the version of
the last entry, in that order, whose key is contained in the input (compared
in lower case), and `AZURE_API_VERSION` when no key is contained. On the
virtual-network id in the order of the source text this is `2018-06-01`,
while the first and the longest match carry `2018-08-01`. -/
theorem C17_last_match (lower : Char → Char)
    (hlower : ∀ c : Char, c.toNat < 128 → lower c = c.toLower)
    (order : List (Str × Str)) (hperm : order.Perm DEFAULT_API_VERSION) (rest : Str) :
    resolveVersion lower order ('/' :: rest) = lastMatchVersion lower order ('/' :: rest) ∧
    ((∀ e ∈ order, containsKey lower ('/' :: rest) e = false) →
      resolveVersion lower order ('/' :: rest) = AZURE_API_VERSION) ∧
    (resolveVersion Char.toLower DEFAULT_API_VERSION exampleNetworkId = "2018-06-01".toList ∧
      firstMatchVersion Char.toLower DEFAULT_API_VERSION exampleNetworkId
        = "2018-08-01".toList ∧
      longestMatchVersion Char.toLower DEFAULT_API_VERSION exampleNetworkId
        = "2018-08-01".toList) := by
  have hiff : ∀ e ∈ order,
      (Index (ToLower lower ('/' :: rest)) (ToLower lower e.1) > 0 ↔
        containsKey lower ('/' :: rest) e = true) := by
    intro e he
    obtain ⟨tail, hk⟩ := table_keys_head e (hperm.mem_iff.mp he)
    have h1 : lower '/' = '/' := hlower '/' (by decide)
    have h2 : lower 'M' = 'm' := hlower 'M' (by decide)
    unfold containsKey
    rw [hk]
    simp only [ToLower, List.map_cons, h1, h2, decide_eq_true_eq]
    exact Index_pos_iff_of_head_ne '/' 'm' _ _ (by decide)
  have hmain : resolveVersion lower order ('/' :: rest) =
      lastMatchVersion lower order ('/' :: rest) := by
    unfold resolveVersion lastMatchVersion
    exact foldl_scanStep_last lower ('/' :: rest) order AZURE_API_VERSION hiff
  refine ⟨hmain, ?_, by decide⟩
  intro hnone
  rw [hmain]
  unfold lastMatchVersion
  have : order.filter (containsKey lower ('/' :: rest)) = [] := by
    rw [List.filter_eq_nil_iff]
    intro e he
    rw [hnone e he]
    decide
  rw [this]
  rfl

set_option maxRecDepth 1000000 in
/-- C17, witness: the ASCII case mapping, the reversed table and a disk id. -/
theorem C17_last_match_witness :
    resolveVersion Char.toLower DEFAULT_API_VERSION.reverse exampleDiskId =
      lastMatchVersion Char.toLower DEFAULT_API_VERSION.reverse exampleDiskId :=
  (C17_last_match Char.toLower (fun _ _ => rfl) DEFAULT_API_VERSION.reverse
    (List.reverse_perm _)
    "subscriptions/s1/resourceGroups/g/providers/Microsoft.Compute/disks/d1".toList).1


set_option maxRecDepth 1000000 in
/-- C18, evaluation at the failing input: on the lower-cased disk id `Delete`
and `PerformAction` send the default api-version `2016-02-01`, while on the
id in its documented casing they send `2018-06-01`, which is also what the
scan of `Get` resolves for both casings. -/
theorem C18_delete_is_case_sensitive :
    resolveVersion Char.toLower DEFAULT_API_VERSION exampleDiskId = "2018-06-01".toList ∧
    resolveVersion Char.toLower DEFAULT_API_VERSION (ToLower Char.toLower exampleDiskId)
      = "2018-06-01".toList ∧
    (SAzureClient.Delete exampleEnv DEFAULT_API_VERSION exampleClient exampleDiskId
        { replies := [.ok (plainResponse 200 [])], sent := [] }).world.sent.map Request.url =
      [exampleDomain ++ exampleDiskId ++ "?api-version=2018-06-01".toList] ∧
    (SAzureClient.Delete exampleEnv DEFAULT_API_VERSION exampleClient
        (ToLower Char.toLower exampleDiskId)
        { replies := [.ok (plainResponse 200 [])], sent := [] }).world.sent.map Request.url =
      [exampleDomain ++ ToLower Char.toLower exampleDiskId ++
        "?api-version=2016-02-01".toList] ∧
    (SAzureClient.PerformAction exampleEnv DEFAULT_API_VERSION exampleClient
        (ToLower Char.toLower exampleDiskId) "beginGetAccess".toList
        { replies := [.ok (plainResponse 200 [])], sent := [] }).world.sent.map Request.url =
      [exampleDomain ++ ToLower Char.toLower exampleDiskId ++ "/beginGetAccess".toList ++
        "?api-version=2016-02-01".toList] := by
  decide

/-- C19: once `getDefaultClient` has succeeded, `PerformAction` sends a POST
without body whose path is `resourceId ++ "/" ++ action`, with the version
resolved from `resourceId` alone; only polls follow it. -/
theorem C19_perform_action_request {J : Type} (E : Env J) (order : List (Str × Str))
    (self self1 : SAzureClient) (resourceId action : Str) (w : World)
    (hg : getDefaultClient E self = (self1, .ok ()))
    (hreq : E.NewRequest "POST".toList
      (requestURL (resolveVersionExact order resourceId) self1.domain
        (resourceId ++ "/".toList ++ action)) = none) :
    ∃ more, (SAzureClient.PerformAction E order self resourceId action w).world.sent =
        w.sent ++ firstRequest "POST".toList (resolveVersionExact order resourceId)
          self1.domain (resourceId ++ "/".toList ++ action) [] :: more ∧
      ∀ q ∈ more, q.method = "GET".toList ∧ q.body = [] := by
  obtain ⟨more, hmore, hall⟩ := _jsonRequest_sent_first E "POST".toList
    (resolveVersionExact order resourceId) self1.domain (resourceId ++ "/".toList ++ action)
    [] w hreq
  refine ⟨more, ?_, hall⟩
  unfold SAzureClient.PerformAction
  simp only [hg, jsonRequest]
  exact hmore

set_option maxRecDepth 1000000 in
/-- C19, witness: the action `beginGetAccess` on a disk id. -/
theorem C19_perform_action_request_witness :
    ∃ more, (SAzureClient.PerformAction exampleEnv DEFAULT_API_VERSION exampleClient
        exampleDiskId "beginGetAccess".toList
        { replies := [.ok (plainResponse 200 [])], sent := [] }).world.sent =
      { method := "POST".toList,
        url := exampleDomain ++ exampleDiskId ++ "/beginGetAccess".toList ++
          "?api-version=2018-06-01".toList,
        body := [],
        contentType := "application/json; charset=utf-8".toList } :: more :=
  Exists.imp (fun _ hm => hm.1)
    (C19_perform_action_request exampleEnv DEFAULT_API_VERSION exampleClient
      exampleClientReady exampleDiskId "beginGetAccess".toList
      { replies := [.ok (plainResponse 200 [])], sent := [] } (by decide) (by decide))

/-- After the status `Succeeded` on the asynchronous-operation path,
`_jsonRequest` returns the decoding of the first response. -/
theorem _jsonRequest_succeeded {J : Type} (E : Env J)
    (method version domain baseUrl body : Str) (w : World) (resp : Response)
    (seq : List Reply) (last : Reply) (rest : List Reply)
    (hreq : E.NewRequest method (requestURL version domain baseUrl) = none)
    (hw : w.replies = .ok resp :: (seq ++ last :: rest))
    (h404 : resp.StatusCode ≠ 404)
    (hasync : resp.AzureAsyncoperation.length > 0)
    (henter : resp.Location.length > 0 ∨ resp.StatusCode ≠ 200)
    (hpoll : E.NewRequest "GET".toList resp.AzureAsyncoperation = none)
    (hseq : ∀ r ∈ seq, isAccepted r = true ∨ hasStatus E "InProgress".toList r = true)
    (hlast : hasStatus E "Succeeded".toList last = true) :
    _jsonRequest E method version domain baseUrl body w =
      ({ replies := rest,
         sent := w.sent ++ firstRequest method version domain baseUrl body ::
           List.replicate (seq.length + 1) (pollRequest resp.AzureAsyncoperation) },
        some (decodeResponse E resp)) := by
  have hcond : resp.Location.length > 0 ∨
      (resp.AzureAsyncoperation.length > 0 ∧ resp.StatusCode ≠ 200) :=
    henter.imp id (fun h => ⟨hasync, h⟩)
  rw [_jsonRequest_reply E method version domain baseUrl body w resp _ hreq hw,
    if_neg h404, if_pos hcond, if_pos hasync,
    pollLoop_succeeded E resp.AzureAsyncoperation resp.AzureAsyncoperation body hpoll hasync
      seq last rest _ hseq hlast, append_singleton_append]

/-- A text has one sublist without carriage return that keeps all its other
characters. -/
theorem sublist_without_cr_unique (data a b : Str)
    (ha : '\r' ∉ a) (hsa : a.Sublist data)
    (hca : ∀ c : Char, c ≠ '\r' → a.count c = data.count c)
    (hb : '\r' ∉ b) (hsb : b.Sublist data)
    (hcb : ∀ c : Char, c ≠ '\r' → b.count c = data.count c) : a = b := by
  have key : ∀ x : Str, '\r' ∉ x → x.Sublist data →
      (∀ c : Char, c ≠ '\r' → x.count c = data.count c) →
      x = data.filter (fun c => c != '\r') := by
    intro x hx hsx hcx
    have hfx : x.filter (fun c => c != '\r') = x := by
      rw [List.filter_eq_self]
      intro c hc
      have : c ≠ '\r' := fun e => hx (e ▸ hc)
      simpa using this
    have hsub : x.Sublist (data.filter (fun c => c != '\r')) := by
      have := hsx.filter (fun c => c != '\r')
      rwa [hfx] at this
    have hperm : x.Perm (data.filter (fun c => c != '\r')) := by
      rw [List.perm_iff_count]
      intro c
      by_cases hc : c = '\r'
      · subst hc
        rw [List.count_eq_zero_of_not_mem hx, List.count_eq_zero_of_not_mem]
        intro hm
        have := (List.mem_filter.mp hm).2
        simp at this
      · rw [hcx c hc, List.count_filter]
        simpa using hc
    exact hsub.eq_of_length hperm.length_eq
  rw [key a ha hsa hca, key b hb hsb hcb]

/-- What `stripCR` does to a text: no carriage return is left, and every
other character stays, in its place among the others. -/
theorem stripCR_spec (data : Str) :
    '\r' ∉ stripCR data ∧ (stripCR data).Sublist data ∧
      (∀ c : Char, c ≠ '\r' → (stripCR data).count c = data.count c) ∧
      ('\r' ∉ data → stripCR data = data) := by
  unfold stripCR
  refine ⟨?_, List.filter_sublist _, ?_, ?_⟩
  · intro hmem
    have := (List.mem_filter.mp hmem).2
    simp at this
  · intro c hc
    rw [List.count_filter]
    simpa using hc
  · intro hno
    rw [List.filter_eq_self]
    intro c hc
    have : c ≠ '\r' := fun e => hno (e ▸ hc)
    simpa using this

/-- C20: when polling on the asynchronous-operation path ends with the
status `Succeeded`, `_jsonRequest` returns what its decoder gives for the
first response, which is also what it returns for that response stripped of
its polling headers: the empty dict for content length zero, otherwise the
parse of the body without its carriage returns (none of them is left, every
other character is kept in order), or an error when the body cannot be read
or parsed or has a top-level `error` field. -/
theorem C20_succeeded_is_sync_decode {J : Type} (E : Env J)
    (method version domain baseUrl body : Str) (w : World) (resp : Response)
    (seq : List Reply) (last : Reply) (rest : List Reply)
    (hreq : E.NewRequest method (requestURL version domain baseUrl) = none)
    (hw : w.replies = .ok resp :: (seq ++ last :: rest))
    (h404 : resp.StatusCode ≠ 404)
    (hasync : resp.AzureAsyncoperation.length > 0)
    (henter : resp.Location.length > 0 ∨ resp.StatusCode ≠ 200)
    (hpoll : E.NewRequest "GET".toList resp.AzureAsyncoperation = none)
    (hseq : ∀ r ∈ seq, isAccepted r = true ∨ hasStatus E "InProgress".toList r = true)
    (hlast : hasStatus E "Succeeded".toList last = true) :
    (_jsonRequest E method version domain baseUrl body w).2 = some (decodeResponse E resp) ∧
    (_jsonRequest E method version domain baseUrl body w).2 =
      (_jsonRequest E method version domain baseUrl body
        { replies := [.ok { resp with Location := [], AzureAsyncoperation := [] }],
          sent := [] }).2 ∧
    (resp.ContentLength = 0 → decodeResponse E resp = .ok E.json.NewDict) ∧
    (∀ data j, resp.ContentLength ≠ 0 → resp.Body = .ok data →
      E.json.Parse (stripCR data) = .ok j →
      E.json.Contains j "error".toList = false → decodeResponse E resp = .ok j) ∧
    (∀ data j, resp.ContentLength ≠ 0 → resp.Body = .ok data →
      E.json.Parse (stripCR data) = .ok j →
      E.json.Contains j "error".toList = true →
      decodeResponse E resp = .error (.Errorf (E.Sprintf (E.json.String j)))) ∧
    (∀ data e, resp.ContentLength ≠ 0 → resp.Body = .ok data →
      E.json.Parse (stripCR data) = .error e →
      decodeResponse E resp = .error (.external e)) ∧
    (∀ e, resp.ContentLength ≠ 0 → resp.Body = .error e →
      decodeResponse E resp = .error (.external e)) ∧
    (∀ data : Str, '\r' ∉ stripCR data ∧ (stripCR data).Sublist data ∧
      (∀ c : Char, c ≠ '\r' → (stripCR data).count c = data.count c) ∧
      ('\r' ∉ data → stripCR data = data)) ∧
    (∀ (data clean : Str) (j : J), resp.ContentLength ≠ 0 → resp.Body = .ok data →
      '\r' ∉ clean → clean.Sublist data →
      (∀ c : Char, c ≠ '\r' → clean.count c = data.count c) →
      E.json.Parse clean = .ok j → E.json.Contains j "error".toList = false →
      (_jsonRequest E method version domain baseUrl body w).2 = some (.ok j)) := by
  have hmain := _jsonRequest_succeeded E method version domain baseUrl body w resp seq last
    rest hreq hw h404 hasync henter hpoll hseq hlast
  have hsync := _jsonRequest_sync E method version domain baseUrl body
    { replies := [.ok { resp with Location := [], AzureAsyncoperation := [] }], sent := [] }
    { resp with Location := [], AzureAsyncoperation := [] } [] hreq rfl h404 (by simp)
  refine ⟨?_, ?_, ?_, ?_, ?_, ?_, ?_, stripCR_spec, ?_⟩
  · rw [hmain]
  · rw [hmain, hsync]
    rfl
  · intro hzero
    simp [decodeResponse, hzero]
  · intro data j hlen hb hp herr
    exact decodeResponse_value E resp data j hlen hb hp herr
  · intro data j hlen hb hp herr
    unfold decodeResponse
    simp only [hlen, if_false, hb, hp, herr, if_true]
  · intro data e hlen hb hp
    unfold decodeResponse
    simp only [hlen, if_false, hb, hp]
  · intro e hlen hb
    unfold decodeResponse
    simp only [hlen, if_false, hb]
  · intro data clean j hlen hb hno hsub hcount hp herr
    have hclean : clean = stripCR data :=
      sublist_without_cr_unique data clean (stripCR data) hno hsub hcount
        (stripCR_spec data).1 (stripCR_spec data).2.1 (stripCR_spec data).2.2.1
    rw [hclean] at hp
    rw [hmain, decodeResponse_value E resp data j hlen hb hp herr]

set_option maxRecDepth 1000000 in
/-- C20, witness: a `201` whose body `{"id":` CR `"x"}` holds a carriage
return and which names an asynchronous operation, then the poll replies 202,
`InProgress`, `Succeeded`; the value returned is the parse of `{"id":"x"}`,
the body without the carriage return (with it the body does not parse). -/
theorem C20_succeeded_is_sync_decode_witness :
    (_jsonRequest exampleEnv "PUT".toList "2018-06-01".toList exampleDomain exampleDiskId
        "\x7b\"name\":\"d1\"\x7d".toList
        { replies := [.ok { StatusCode := 201, ContentLength := 11, Location := [],
                            AzureAsyncoperation := exampleOperation,
                            Body := .ok "\x7b\"id\":\r\"x\"\x7d".toList },
                      reply202, replyInProgress, replySucceeded],
          sent := [] }).2 = some (.ok [("id".toList, "x".toList)]) ∧
    stripCR "\x7b\"id\":\r\"x\"\x7d".toList = "\x7b\"id\":\"x\"\x7d".toList ∧
    exampleJSON.Parse "\x7b\"id\":\r\"x\"\x7d".toList = .error "unexpected text".toList :=
  by
    have h := C20_succeeded_is_sync_decode exampleEnv "PUT".toList "2018-06-01".toList
      exampleDomain exampleDiskId "\x7b\"name\":\"d1\"\x7d".toList
      { replies := [.ok { StatusCode := 201, ContentLength := 11, Location := [],
                          AzureAsyncoperation := exampleOperation,
                          Body := .ok "\x7b\"id\":\r\"x\"\x7d".toList },
                    reply202, replyInProgress, replySucceeded],
        sent := [] }
      { StatusCode := 201, ContentLength := 11, Location := [],
        AzureAsyncoperation := exampleOperation,
        Body := .ok "\x7b\"id\":\r\"x\"\x7d".toList }
      [reply202, replyInProgress] replySucceeded []
      (by decide) rfl (by decide) (by decide) (by decide) (by decide) (by decide)
      (by decide)
    exact ⟨h.1.trans (congrArg some
        (h.2.2.2.1 "\x7b\"id\":\r\"x\"\x7d".toList [("id".toList, "x".toList)]
          (by decide) rfl (by decide) (by decide))),
      by decide, by decide⟩

end Azure
namespace Azure

/-! ## Regions: hosts and disks -/

/-- Regions that answer `ErrNotFound` are passed over. -/
theorem getIHostByIdLoop_skip {H : Type} (lookup : SRegion → Str → Except Error H) (id : Str)
    (pre rest consulted : List SRegion)
    (hpre : ∀ r ∈ pre, lookup r id = .error .ErrNotFound) :
    getIHostByIdLoop lookup id (pre ++ rest) consulted =
      getIHostByIdLoop lookup id rest (consulted ++ pre) := by
  induction pre generalizing consulted with
  | nil => simp
  | cons r pre ih =>
    have hr := hpre r (List.mem_cons_self _ _)
    rw [List.cons_append, getIHostByIdLoop]
    simp only [hr, ne_eq, not_true_eq_false, if_false]
    rw [ih _ (fun x hx => hpre x (List.mem_cons_of_mem _ hx))]
    simp

/-- The loop returns `ErrNotFound` only after every region has answered so. -/
theorem getIHostByIdLoop_notFound {H : Type} (lookup : SRegion → Str → Except Error H)
    (id : Str) (regions consulted : List SRegion)
    (h : (getIHostByIdLoop lookup id regions consulted).1 = .error .ErrNotFound) :
    ∀ r ∈ regions, lookup r id = .error .ErrNotFound := by
  induction regions generalizing consulted with
  | nil => intro r hr; cases hr
  | cons a rest ih =>
    rw [getIHostByIdLoop] at h
    cases ha : lookup a id with
    | ok ihost => rw [ha] at h; cases h
    | error err =>
      rw [ha] at h
      by_cases he : err = .ErrNotFound
      · subst he
        simp only [ne_eq, not_true_eq_false, if_false] at h
        intro r hr
        rcases List.mem_cons.mp hr with rfl | hr
        · exact ha
        · exact ih _ h r hr
      · simp only [ne_eq, he, not_false_eq_true, if_true] at h
        cases h
        exact absurd rfl he

/-- C24: `GetIHostById` asks the regions in list order. It returns the host
of the first region whose lookup succeeds when every earlier region answered
`ErrNotFound`; it returns the first error other than `ErrNotFound` met before
any success, and asks no later region; and it returns `ErrNotFound` exactly
when every region answers `ErrNotFound`, also when there is no region. -/
theorem C24_get_ihost_by_id {H : Type} (lookup : SRegion → Str → Except Error H)
    (self : SAzureClient) (id : Str) :
    (∀ (pre : List SRegion) (region : SRegion) (post : List SRegion) (ihost : H),
      self.iregions = pre ++ region :: post →
      (∀ r ∈ pre, lookup r id = .error .ErrNotFound) →
      lookup region id = .ok ihost →
      SAzureClient.GetIHostById lookup self id = (.ok ihost, pre ++ [region])) ∧
    (∀ (pre : List SRegion) (region : SRegion) (post : List SRegion) (err : Error),
      self.iregions = pre ++ region :: post →
      (∀ r ∈ pre, lookup r id = .error .ErrNotFound) →
      lookup region id = .error err → err ≠ .ErrNotFound →
      SAzureClient.GetIHostById lookup self id = (.error err, pre ++ [region])) ∧
    ((SAzureClient.GetIHostById lookup self id).1 = .error .ErrNotFound ↔
      ∀ r ∈ self.iregions, lookup r id = .error .ErrNotFound) ∧
    (self.iregions = [] →
      SAzureClient.GetIHostById lookup self id = (.error .ErrNotFound, [])) := by
  refine ⟨?_, ?_, ⟨?_, ?_⟩, ?_⟩
  · intro pre region post ihost hreg hpre hok
    unfold SAzureClient.GetIHostById
    rw [hreg, getIHostByIdLoop_skip lookup id pre _ [] hpre, getIHostByIdLoop]
    simp only [hok, List.nil_append]
  · intro pre region post err hreg hpre herr hne
    unfold SAzureClient.GetIHostById
    rw [hreg, getIHostByIdLoop_skip lookup id pre _ [] hpre, getIHostByIdLoop]
    simp only [herr, ne_eq, hne, not_false_eq_true, if_true, List.nil_append]
  · intro h
    exact getIHostByIdLoop_notFound lookup id self.iregions [] h
  · intro hall
    unfold SAzureClient.GetIHostById
    have := getIHostByIdLoop_skip lookup id self.iregions [] [] hall
    rw [List.append_nil] at this
    rw [this]
    rfl
  · intro hnil
    unfold SAzureClient.GetIHostById
    rw [hnil]
    rfl

set_option maxRecDepth 1000000 in
/-- C24, witness: `eastus` answers `ErrNotFound`, `westus` has the host, and
`northeurope`, which would answer with an error, is not asked. -/
theorem C24_get_ihost_by_id_witness :
    SAzureClient.GetIHostById exampleLookup
        { exampleClient with iregions := [regionEast, regionWest, regionNorth] } "h1".toList =
      (.ok "host-1".toList, [regionEast, regionWest]) :=
  (C24_get_ihost_by_id exampleLookup
    { exampleClient with iregions := [regionEast, regionWest, regionNorth] } "h1".toList).1
    [regionEast] regionWest [regionNorth] "host-1".toList rfl (by decide) (by decide)

theorem disksOfRegion_eq (name : Str) (disks result : List SDisk) :
    disksOfRegion name disks result =
      result ++ disks.filter (fun disk => decide (disk.Location = name)) := by
  induction disks generalizing result with
  | nil => simp [disksOfRegion]
  | cons d rest ih =>
    rw [disksOfRegion]
    by_cases hd : d.Location = name
    · simp [hd, ih]
    · simp [hd, ih]

theorem count_filter_location (name : Str) (disks : List SDisk) (disk : SDisk) :
    (disks.filter (fun d => decide (d.Location = name))).count disk =
      if disk.Location = name then disks.count disk else 0 := by
  induction disks with
  | nil => simp
  | cons d rest ih =>
    by_cases hd : d.Location = name
    · rw [List.filter_cons_of_pos (by simpa using hd), List.count_cons, List.count_cons, ih]
      by_cases hk : disk.Location = name
      · simp [hk]
      · have hne : ¬ (d = disk) := fun e => hk (e ▸ hd)
        simp [hk, hne]
    · rw [List.filter_cons_of_neg (by simpa using hd), List.count_cons, ih]
      by_cases hk : disk.Location = name
      · have hne : ¬ (d = disk) := fun e => hd (e ▸ hk)
        simp [hk, hne]
      · simp [hk]

/-- C25: when `ListAll("Microsoft.Compute/disks")` returns the list `disks`,
`GetDisks` returns the disks of that list whose `Location` equals the name
of the region, in their order in `disks` and each as often as it occurs
there; when `ListAll` returns an error, `GetDisks` returns that error and
no list. -/
theorem C25_get_disks {J : Type} (E : Env J) (unmarshal : J → Except Str (List SDisk))
    (client : SAzureClient) (self : SRegion) (w : World) :
    (∀ disks : List SDisk,
      (SAzureClient.ListAll E unmarshal client "Microsoft.Compute/disks".toList w).result
        = some (.ok disks) →
      (SRegion.GetDisks E unmarshal client self w).result =
          some (.ok (disks.filter (fun disk => decide (disk.Location = self.Name)))) ∧
        (disks.filter (fun disk => decide (disk.Location = self.Name))).Sublist disks ∧
        (∀ disk, (disks.filter (fun disk => decide (disk.Location = self.Name))).count disk =
          if disk.Location = self.Name then disks.count disk else 0)) ∧
    (∀ err : Error,
      (SAzureClient.ListAll E unmarshal client "Microsoft.Compute/disks".toList w).result
        = some (.error err) →
      (SRegion.GetDisks E unmarshal client self w).result = some (.error err)) := by
  refine ⟨?_, ?_⟩
  · intro disks h
    refine ⟨?_, List.filter_sublist _, ?_⟩
    · unfold SRegion.GetDisks
      simp only [h, disksOfRegion_eq, List.nil_append]
    · intro disk
      exact count_filter_location self.Name disks disk
  · intro err h
    unfold SRegion.GetDisks
    simp only [h]


set_option maxRecDepth 1000000 in
/-- C25, witness: of four disks listed, the two located in `eastus` are
returned for the region `eastus`, in their order; `EastUS` is another
location. -/
theorem C25_get_disks_witness :
    (SRegion.GetDisks listingEnv (UnmarshalValue listingEnv decodeDisk) exampleClient
        regionEast
        { replies := [.ok (plainResponse 200
            ("\x7b\"value\":[\x7b\"name\":\"d1\",\"location\":\"eastus\"\x7d," ++
              "\x7b\"name\":\"d2\",\"location\":\"westus\"\x7d," ++
              "\x7b\"name\":\"d3\",\"location\":\"eastus\"\x7d," ++
              "\x7b\"name\":\"d4\",\"location\":\"EastUS\"\x7d]\x7d").toList)],
          sent := [] }).result =
      some (.ok ([exampleDisk "d1".toList "eastus".toList,
                  exampleDisk "d2".toList "westus".toList,
                  exampleDisk "d3".toList "eastus".toList,
                  exampleDisk "d4".toList "EastUS".toList].filter
        (fun disk => decide (disk.Location = regionEast.Name)))) ∧
    [exampleDisk "d1".toList "eastus".toList,
      exampleDisk "d2".toList "westus".toList,
      exampleDisk "d3".toList "eastus".toList,
      exampleDisk "d4".toList "EastUS".toList].filter
        (fun disk => decide (disk.Location = regionEast.Name)) =
      [exampleDisk "d1".toList "eastus".toList, exampleDisk "d3".toList "eastus".toList] :=
  ⟨((C25_get_disks listingEnv (UnmarshalValue listingEnv decodeDisk) exampleClient regionEast
      { replies := [.ok (plainResponse 200
          ("\x7b\"value\":[\x7b\"name\":\"d1\",\"location\":\"eastus\"\x7d," ++
            "\x7b\"name\":\"d2\",\"location\":\"westus\"\x7d," ++
            "\x7b\"name\":\"d3\",\"location\":\"eastus\"\x7d," ++
            "\x7b\"name\":\"d4\",\"location\":\"EastUS\"\x7d]\x7d").toList)],
        sent := [] }).1
      [exampleDisk "d1".toList "eastus".toList,
       exampleDisk "d2".toList "westus".toList,
       exampleDisk "d3".toList "eastus".toList,
       exampleDisk "d4".toList "EastUS".toList] (by decide)).1,
   by decide⟩

/-! ## Credentials -/

theorem Split_ne_nil (s : Str) (sep : Char) : Split s sep ≠ [] := by
  cases s with
  | nil => simp [Split]
  | cons c cs =>
    rw [Split]
    split
    · simp
    · split <;> simp

theorem Split_append_sep (a b : Str) (sep : Char) (h : sep ∉ a) :
    Split (a ++ sep :: b) sep = a :: Split b sep := by
  induction a with
  | nil => simp [Split]
  | cons c a ih =>
    have hc : ¬ c = sep := fun e => h (e ▸ List.mem_cons_self _ _)
    have ha : sep ∉ a := fun m => h (List.mem_cons_of_mem _ m)
    rw [List.cons_append, Split, if_neg hc, ih ha]

theorem Join_Split (s : Str) (sep : Char) : Join (Split s sep) [sep] = s := by
  induction s with
  | nil => rfl
  | cons c cs ih =>
    rw [Split]
    by_cases hc : c = sep
    · rw [if_pos hc]
      cases hs : Split cs sep with
      | nil => exact absurd hs (Split_ne_nil cs sep)
      | cons q ps =>
        rw [hs] at ih
        rw [Join, ih, hc]
        rfl
    · rw [if_neg hc]
      cases hs : Split cs sep with
      | nil => exact absurd hs (Split_ne_nil cs sep)
      | cons p ps =>
        rw [hs] at ih
        cases ps with
        | nil =>
          simp only [Join] at ih ⊢
          rw [ih]
        | cons q ps =>
          simp only [Join] at ih ⊢
          rw [← ih]
          simp

theorem exists_first_sep (s : Str) (sep : Char) (h : sep ∈ s) :
    ∃ a b, s = a ++ sep :: b ∧ sep ∉ a := by
  induction s with
  | nil => cases h
  | cons c cs ih =>
    by_cases hc : c = sep
    · exact ⟨[], cs, by rw [hc]; rfl, by simp⟩
    · have hcs : sep ∈ cs := by
        rcases List.mem_cons.mp h with e | m
        · exact absurd e.symm hc
        · exact m
      obtain ⟨a, b, hab, hna⟩ := ih hcs
      refine ⟨c :: a, b, by rw [hab]; rfl, ?_⟩
      intro m
      rcases List.mem_cons.mp m with e | m
      · exact hc e.symm
      · exact hna m

end Azure
namespace Azure

theorem sameAccount_refl (a : SAzureClient) : sameAccount a a := ⟨rfl, rfl, rfl, rfl⟩

theorem sameAccount_trans {a b c : SAzureClient} (h1 : sameAccount a b) (h2 : sameAccount b c) :
    sameAccount a c :=
  ⟨h2.1.trans h1.1, h2.2.1.trans h1.2.1, h2.2.2.1.trans h1.2.2.1, h2.2.2.2.trans h1.2.2.2⟩

theorem getDefaultClient_sameAccount {J : Type} (E : Env J) (self : SAzureClient) :
    sameAccount self (getDefaultClient E self).1 := by
  unfold getDefaultClient
  split
  · exact sameAccount_refl self
  · split <;> exact ⟨rfl, rfl, rfl, rfl⟩

theorem ListSubscriptions_self {J : Type} (E : Env J) (self : SAzureClient) (w : World) :
    (SAzureClient.ListSubscriptions E self w).self = (getDefaultClient E self).1 := by
  unfold SAzureClient.ListSubscriptions
  rcases getDefaultClient E self with ⟨self1, (e | u)⟩ <;> rfl

theorem ListResource_self {J α : Type} (E : Env J) (unmarshal : J → Except Str α)
    (self : SAzureClient) (golbalResource : Str) (w : World) :
    (SAzureClient.ListResource E unmarshal self golbalResource w).self =
      (getDefaultClient E self).1 := by
  unfold SAzureClient.ListResource
  rcases getDefaultClient E self with ⟨self1, (e | u)⟩
  · rfl
  · simp only
    split
    · rfl
    · rfl
    · split <;> rfl

theorem fetchSubscriptionName_sameAccount {J : Type} (E : Env J) (self : SAzureClient)
    (w : World) : sameAccount self (fetchSubscriptionName E self w).self := by
  have h := getDefaultClient_sameAccount E self
  rw [← ListSubscriptions_self E self w] at h
  unfold fetchSubscriptionName
  simp only
  split
  · exact h
  · exact h
  · split
    · exact h
    · split
      · exact ⟨h.1, h.2.1, h.2.2.1, h.2.2.2⟩
      · exact h

theorem fetchRegions_sameAccount {J : Type} (E : Env J)
    (unmarshalRegions : J → Except Str (List SRegion)) (self : SAzureClient) (w : World) :
    sameAccount self (SAzureClient.fetchRegions E unmarshalRegions self w).self := by
  unfold SAzureClient.fetchRegions
  split
  · have h := getDefaultClient_sameAccount E self
    rw [← ListResource_self E unmarshalRegions self "locations".toList w] at h
    simp only
    split
    · exact h
    · exact h
    · exact sameAccount_trans (b := { (SAzureClient.ListResource E unmarshalRegions self
          "locations".toList w).self with iregions := _ })
        ⟨h.1, h.2.1, h.2.2.1, h.2.2.2⟩ (fetchSubscriptionName_sameAccount E _ _)
  · exact fetchSubscriptionName_sameAccount E self w


/-- The client `NewAzureClient` returns holds the two parts of the split. -/
theorem NewAzureClient_client {J : Type} (E : Env J)
    (unmarshalRegions : J → Except Str (List SRegion))
    (providerId providerName accessKey secret envName : Str) (w w1 : World)
    (client : SAzureClient)
    (hres : NewAzureClient E unmarshalRegions providerId providerName accessKey secret envName w
      = (w1, some (.ok client))) :
    client.clientId = (Split secret '/').headD [] ∧
      client.clientScret = Join ((Split secret '/').drop 1) "/".toList := by
  unfold NewAzureClient at hres
  simp only at hres
  split at hres
  · split at hres
    · cases hres
    · cases hres
    · simp only [Prod.mk.injEq, Option.some.injEq, Except.ok.injEq] at hres
      rw [← hres.2]
      refine ⟨(fetchRegions_sameAccount E unmarshalRegions _ w).2.2.1.trans ?_,
        (fetchRegions_sameAccount E unmarshalRegions _ w).2.2.2.trans ?_⟩
      · split <;> rfl
      · split <;> rfl
  · cases hres

/-- With a secret of two parts or more `NewAzureClient` builds its client
from the parts and hands it to `fetchRegions`, whose outcome it returns. -/
theorem NewAzureClient_of_parts {J : Type} (E : Env J)
    (unmarshalRegions : J → Except Str (List SRegion))
    (providerId providerName accessKey secret envName : Str) (w : World)
    (hlen : (Split secret '/').length ≥ 2) :
    NewAzureClient E unmarshalRegions providerId providerName accessKey secret envName w =
      ((SAzureClient.fetchRegions E unmarshalRegions
          { SAzureClient.zero with
            providerId := providerId, providerName := providerName, secret := secret,
            envName := envName, clientId := (Split secret '/').headD [],
            clientScret := Join ((Split secret '/').drop 1) "/".toList,
            tenantId := (Split accessKey '/').headD [],
            subscriptionId :=
              if (Split accessKey '/').length = 2 then (Split accessKey '/').getD 1 []
              else [] } w).world,
        (SAzureClient.fetchRegions E unmarshalRegions
          { SAzureClient.zero with
            providerId := providerId, providerName := providerName, secret := secret,
            envName := envName, clientId := (Split secret '/').headD [],
            clientScret := Join ((Split secret '/').drop 1) "/".toList,
            tenantId := (Split accessKey '/').headD [],
            subscriptionId :=
              if (Split accessKey '/').length = 2 then (Split accessKey '/').getD 1 []
              else [] } w).result.map
          (Except.map (fun _ =>
            (SAzureClient.fetchRegions E unmarshalRegions
              { SAzureClient.zero with
                providerId := providerId, providerName := providerName, secret := secret,
                envName := envName, clientId := (Split secret '/').headD [],
                clientScret := Join ((Split secret '/').drop 1) "/".toList,
                tenantId := (Split accessKey '/').headD [],
                subscriptionId :=
                  if (Split accessKey '/').length = 2 then (Split accessKey '/').getD 1 []
                  else [] } w).self))) := by
  have hacc : (Split accessKey '/').length ≥ 1 := by
    cases hs : Split accessKey '/' with
    | nil => exact absurd hs (Split_ne_nil accessKey '/')
    | cons p ps => simp
  unfold NewAzureClient
  simp only [hlen, hacc, and_self, if_true]
  by_cases hc : (Split accessKey '/').length = 2
  · simp only [hc, if_true]
    split <;> simp_all [Except.map]
  · simp only [hc, if_false]
    split <;> simp_all [Except.map, SAzureClient.zero]

/-- C22: for a secret that contains a `/`, the split of `NewAzureClient`
gives as `clientId` the text before the first `/` and as `clientScret` all
the text after it, further `/` kept: `NewAzureClient` does not refuse the
secret but hands the client built from these two parts to `fetchRegions` and
returns its outcome, the client returned holds the two parts,
`clientId ++ "/" ++ clientScret` is the secret and `clientId` has no `/`. -/
theorem C22_credential_split (secret : Str) (h : '/' ∈ secret) :
    ∃ a b, secret = a ++ '/' :: b ∧ '/' ∉ a ∧
      (Split secret '/').headD [] = a ∧
      Join ((Split secret '/').drop 1) "/".toList = b ∧
      (∀ (J : Type) (E : Env J) (unmarshalRegions : J → Except Str (List SRegion))
          (providerId providerName accessKey envName : Str) (w w1 : World)
          (client : SAzureClient),
        NewAzureClient E unmarshalRegions providerId providerName accessKey secret envName w
          = (w1, some (.ok client)) →
        client.clientId = a ∧ client.clientScret = b ∧
          client.clientId ++ "/".toList ++ client.clientScret = secret ∧
          '/' ∉ client.clientId) ∧
      (∀ (J : Type) (E : Env J) (unmarshalRegions : J → Except Str (List SRegion))
          (providerId providerName accessKey envName : Str) (w : World),
        NewAzureClient E unmarshalRegions providerId providerName accessKey secret envName w =
          ((SAzureClient.fetchRegions E unmarshalRegions
              { SAzureClient.zero with
                providerId := providerId, providerName := providerName, secret := secret,
                envName := envName, clientId := a, clientScret := b,
                tenantId := (Split accessKey '/').headD [],
                subscriptionId :=
                  if (Split accessKey '/').length = 2 then (Split accessKey '/').getD 1 []
                  else [] } w).world,
            (SAzureClient.fetchRegions E unmarshalRegions
              { SAzureClient.zero with
                providerId := providerId, providerName := providerName, secret := secret,
                envName := envName, clientId := a, clientScret := b,
                tenantId := (Split accessKey '/').headD [],
                subscriptionId :=
                  if (Split accessKey '/').length = 2 then (Split accessKey '/').getD 1 []
                  else [] } w).result.map
              (Except.map (fun _ =>
                (SAzureClient.fetchRegions E unmarshalRegions
                  { SAzureClient.zero with
                    providerId := providerId, providerName := providerName,
                    secret := secret, envName := envName, clientId := a, clientScret := b,
                    tenantId := (Split accessKey '/').headD [],
                    subscriptionId :=
                      if (Split accessKey '/').length = 2 then
                        (Split accessKey '/').getD 1 []
                      else [] } w).self)))) ∧
      (∀ (J : Type) (E : Env J) (unmarshalRegions : J → Except Str (List SRegion))
          (providerId providerName accessKey envName : Str) (w : World),
        (SAzureClient.fetchRegions E unmarshalRegions
            { SAzureClient.zero with
              providerId := providerId, providerName := providerName, secret := secret,
              envName := envName, clientId := a, clientScret := b,
              tenantId := (Split accessKey '/').headD [],
              subscriptionId :=
                if (Split accessKey '/').length = 2 then (Split accessKey '/').getD 1 []
                else [] } w).result = some (.ok ()) →
        ∃ w1 client,
          NewAzureClient E unmarshalRegions providerId providerName accessKey secret envName w
            = (w1, some (.ok client)) ∧
          client.clientId = a ∧ client.clientScret = b) := by
  obtain ⟨a, b, hab, hna⟩ := exists_first_sep secret '/' h
  have hsplit : Split secret '/' = a :: Split b '/' := by
    rw [hab]
    exact Split_append_sep a b '/' hna
  have hhead : (Split secret '/').headD [] = a := by rw [hsplit]; rfl
  have hjoin : Join ((Split secret '/').drop 1) "/".toList = b := by
    rw [hsplit]
    exact Join_Split b '/'
  have hlen : (Split secret '/').length ≥ 2 := by
    rw [hsplit]
    cases hs : Split b '/' with
    | nil => exact absurd hs (Split_ne_nil b '/')
    | cons p ps => simp
  have hparts : ∀ (J : Type) (E : Env J) (unmarshalRegions : J → Except Str (List SRegion))
      (providerId providerName accessKey envName : Str) (w : World),
      NewAzureClient E unmarshalRegions providerId providerName accessKey secret envName w =
        ((SAzureClient.fetchRegions E unmarshalRegions
            { SAzureClient.zero with
              providerId := providerId, providerName := providerName, secret := secret,
              envName := envName, clientId := a, clientScret := b,
              tenantId := (Split accessKey '/').headD [],
              subscriptionId :=
                if (Split accessKey '/').length = 2 then (Split accessKey '/').getD 1 []
                else [] } w).world,
          (SAzureClient.fetchRegions E unmarshalRegions
            { SAzureClient.zero with
              providerId := providerId, providerName := providerName, secret := secret,
              envName := envName, clientId := a, clientScret := b,
              tenantId := (Split accessKey '/').headD [],
              subscriptionId :=
                if (Split accessKey '/').length = 2 then (Split accessKey '/').getD 1 []
                else [] } w).result.map
            (Except.map (fun _ =>
              (SAzureClient.fetchRegions E unmarshalRegions
                { SAzureClient.zero with
                  providerId := providerId, providerName := providerName,
                  secret := secret, envName := envName, clientId := a, clientScret := b,
                  tenantId := (Split accessKey '/').headD [],
                  subscriptionId :=
                    if (Split accessKey '/').length = 2 then
                      (Split accessKey '/').getD 1 []
                    else [] } w).self))) := by
    intro J E unmarshalRegions providerId providerName accessKey envName w
    have := NewAzureClient_of_parts E unmarshalRegions providerId providerName accessKey
      secret envName w hlen
    rw [hhead, hjoin] at this
    exact this
  refine ⟨a, b, hab, hna, hhead, hjoin, ?_, hparts, ?_⟩
  · intro J E unmarshalRegions providerId providerName accessKey envName w w1 client hres
    obtain ⟨h1, h2⟩ := NewAzureClient_client E unmarshalRegions providerId providerName
      accessKey secret envName w w1 client hres
    rw [hhead] at h1
    rw [hjoin] at h2
    refine ⟨h1, h2, ?_, ?_⟩
    · rw [h1, h2, hab]
      simp
    · rw [h1]
      exact hna
  · intro J E unmarshalRegions providerId providerName accessKey envName w hok
    have hs := fetchRegions_sameAccount E unmarshalRegions
      { SAzureClient.zero with
        providerId := providerId, providerName := providerName, secret := secret,
        envName := envName, clientId := a, clientScret := b,
        tenantId := (Split accessKey '/').headD [],
        subscriptionId :=
          if (Split accessKey '/').length = 2 then (Split accessKey '/').getD 1 []
          else [] } w
    rw [hparts J E unmarshalRegions providerId providerName accessKey envName w, hok]
    exact ⟨_, _, rfl, hs.2.2.1, hs.2.2.2⟩

set_option maxRecDepth 1000000 in
/-- C22, witness: the secret `client-1/password`, with one `/`, with which
`NewAzureClient`, answered with an empty listing of subscriptions, returns a
client whose `clientId` is `client-1` and whose `clientScret` is `password`;
and the split of `client-1/pass/word`, whose second part keeps its `/`. -/
theorem C22_credential_split_witness :
    (∃ w1 client,
      NewAzureClient listingEnv (fun _ => Except.ok []) "provider-1".toList "azure".toList
          "t1".toList "client-1/password".toList "AzurePublicCloud".toList
          { replies := [.ok (plainResponse 200 "\x7b\"value\":[]\x7d".toList)], sent := [] }
        = (w1, some (.ok client)) ∧
      client.clientId = "client-1".toList ∧ client.clientScret = "password".toList) ∧
    (Split "client-1/pass/word".toList '/').headD [] = "client-1".toList ∧
    Join ((Split "client-1/pass/word".toList '/').drop 1) "/".toList = "pass/word".toList := by
  obtain ⟨a, b, _, _, hhead, hjoin, _, _, hok⟩ :=
    C22_credential_split "client-1/password".toList (by decide)
  have ha : "client-1".toList = a := Eq.trans (by decide) hhead
  have hb : "password".toList = b := Eq.trans (by decide) hjoin
  subst ha
  subst hb
  exact ⟨hok ListingJSON listingEnv (fun _ => Except.ok []) "provider-1".toList
      "azure".toList "t1".toList "AzurePublicCloud".toList
      { replies := [.ok (plainResponse 200 "\x7b\"value\":[]\x7d".toList)], sent := [] }
      (by decide),
    by decide, by decide⟩

/-- C23: `UpdateAccount` leaves the stored `secret` and `envName` as they
were, whatever it returns; and when the three arguments equal the stored
`tenantId`, `secret` and `envName` it returns nil, changes no field and sends
no request. -/
theorem C23_update_account_frame {J : Type} (E : Env J)
    (unmarshalRegions : J → Except Str (List SRegion)) (self : SAzureClient)
    (tenantId secret envName : Str) (w : World) :
    ((SAzureClient.UpdateAccount E unmarshalRegions self tenantId secret envName w).self.secret
        = self.secret ∧
      (SAzureClient.UpdateAccount E unmarshalRegions self tenantId secret envName w).self.envName
        = self.envName) ∧
    (tenantId = self.tenantId → secret = self.secret → envName = self.envName →
      SAzureClient.UpdateAccount E unmarshalRegions self tenantId secret envName w =
        { self := self, world := w, result := some (.ok ()) }) := by
  refine ⟨?_, ?_⟩
  · unfold SAzureClient.UpdateAccount
    simp only
    split
    · split
      · refine ⟨(fetchRegions_sameAccount E unmarshalRegions _ w).1.trans ?_,
          (fetchRegions_sameAccount E unmarshalRegions _ w).2.1.trans ?_⟩
        · split <;> rfl
        · split <;> rfl
      · exact ⟨rfl, rfl⟩
    · exact ⟨rfl, rfl⟩
  · intro h1 h2 h3
    unfold SAzureClient.UpdateAccount
    simp [h1, h2, h3]

set_option maxRecDepth 1000000 in
/-- C23, witness: the example client updated with its own tenant, secret and
environment. -/
theorem C23_update_account_frame_witness :
    SAzureClient.UpdateAccount exampleEnv (fun _ => Except.ok []) exampleClient
        "t1".toList "c1/p1".toList "AzurePublicCloud".toList
        { replies := [reply202], sent := [] } =
      { self := exampleClient, world := { replies := [reply202], sent := [] },
        result := some (.ok ()) } :=
  (C23_update_account_frame exampleEnv (fun _ => Except.ok []) exampleClient
    "t1".toList "c1/p1".toList "AzurePublicCloud".toList
    { replies := [reply202], sent := [] }).2 rfl rfl rfl


/-! ## Order independence over the concrete table -/

/-- On ASCII text the scan does not depend on the case mapping beyond ASCII. -/
theorem resolveVersion_ascii (lower : Char → Char)
    (hlower : ∀ c : Char, c.toNat < 128 → lower c = c.toLower)
    (order : List (Str × Str)) (url : Str)
    (horder : ∀ e ∈ order, ∀ c ∈ e.1, c.toNat < 128) (hurl : ∀ c ∈ url, c.toNat < 128) :
    resolveVersion lower order url = resolveVersion Char.toLower order url := by
  have hu := ToLower_ascii lower hlower url hurl
  have key : ∀ (l : List (Str × Str)) (init : Str), (∀ e ∈ l, ∀ c ∈ e.1, c.toNat < 128) →
      l.foldl (scanStep lower url) init = l.foldl (scanStep Char.toLower url) init := by
    intro l
    induction l with
    | nil => intro _ _; rfl
    | cons a l ih =>
      intro init hl
      have ha := ToLower_ascii lower hlower a.1 (hl a (List.mem_cons_self _ _))
      have hstep : scanStep lower url init a = scanStep Char.toLower url init a := by
        unfold scanStep
        rw [hu, ha]
      rw [List.foldl_cons, List.foldl_cons, hstep]
      exact ih _ (fun e he => hl e (List.mem_cons_of_mem _ he))
  exact key order AZURE_API_VERSION horder

set_option maxRecDepth 1000000 in
set_option maxHeartbeats 4000000 in
theorem table_provider_path :
    ∀ p ∈ DEFAULT_API_VERSION,
      (∀ c ∈ "/providers/".toList ++ p.1, c.toNat < 128) ∧
      mapGet DEFAULT_API_VERSION p.1 = some p.2 ∧
      Index (ToLower Char.toLower ("/providers/".toList ++ p.1)) (ToLower Char.toLower p.1) > 0 ∧
      ∀ e ∈ DEFAULT_API_VERSION,
        Index (ToLower Char.toLower ("/providers/".toList ++ p.1))
            (ToLower Char.toLower e.1) > 0 →
          p.1 ≠ virtualNetworksKey → e.2 = p.2 := by
  decide

set_option maxRecDepth 1000000 in
theorem virtualNetworks_orders :
    (∀ p ∈ DEFAULT_API_VERSION, p.1 = virtualNetworksKey → p.2 = "2018-08-01".toList) ∧
    resolveVersion Char.toLower DEFAULT_API_VERSION.reverse
        ("/providers/".toList ++ virtualNetworksKey) = "2018-08-01".toList ∧
    resolveVersion Char.toLower DEFAULT_API_VERSION
        ("/providers/".toList ++ virtualNetworksKey) = "2018-06-01".toList := by
  decide

/-- C21: over the table `DEFAULT_API_VERSION`, for a key `K` the path
`"/providers/" ++ K` resolves to `DEFAULT_API_VERSION[K]` under every
iteration order exactly when `K` is not `Microsoft.Network/virtualNetworks`;
for that key the reversed table resolves to `2018-08-01` and the table in the
order of the source text to the `2018-06-01` of `Microsoft.Network`. -/
theorem C21_order_independence (lower : Char → Char)
    (hlower : ∀ c : Char, c.toNat < 128 → lower c = c.toLower) :
    (∀ p ∈ DEFAULT_API_VERSION,
      mapGet DEFAULT_API_VERSION p.1 = some p.2 ∧
      ((∀ order : List (Str × Str), order.Perm DEFAULT_API_VERSION →
          resolveVersion lower order ("/providers/".toList ++ p.1) = p.2) ↔
        p.1 ≠ virtualNetworksKey)) ∧
    (DEFAULT_API_VERSION.reverse.Perm DEFAULT_API_VERSION ∧
      resolveVersion lower DEFAULT_API_VERSION.reverse
        ("/providers/".toList ++ virtualNetworksKey) = "2018-08-01".toList ∧
      resolveVersion lower DEFAULT_API_VERSION
        ("/providers/".toList ++ virtualNetworksKey) = "2018-06-01".toList) := by
  have hvascii : ∀ c ∈ "/providers/".toList ++ virtualNetworksKey, c.toNat < 128 := by
    decide
  have htrans : ∀ (order : List (Str × Str)) (url : Str), order.Perm DEFAULT_API_VERSION →
      (∀ c ∈ url, c.toNat < 128) →
      resolveVersion lower order url = resolveVersion Char.toLower order url := by
    intro order url hperm hurl
    exact resolveVersion_ascii lower hlower order url
      (fun e he => table_ascii e (hperm.mem_iff.mp he)) hurl
  have hrev : resolveVersion lower DEFAULT_API_VERSION.reverse
      ("/providers/".toList ++ virtualNetworksKey) = "2018-08-01".toList := by
    rw [htrans _ _ (List.reverse_perm _) hvascii]
    exact virtualNetworks_orders.2.1
  have hsrc : resolveVersion lower DEFAULT_API_VERSION
      ("/providers/".toList ++ virtualNetworksKey) = "2018-06-01".toList := by
    rw [htrans _ _ (List.Perm.refl _) hvascii]
    exact virtualNetworks_orders.2.2
  refine ⟨?_, List.reverse_perm _, hrev, hsrc⟩
  intro p hp
  obtain ⟨hascii, hget, hself, hall⟩ := table_provider_path p hp
  refine ⟨hget, ⟨?_, ?_⟩⟩
  · intro hevery hkey
    have h1 := hevery DEFAULT_API_VERSION (List.Perm.refl _)
    rw [hkey, hsrc, virtualNetworks_orders.1 p hp hkey] at h1
    exact absurd h1 (by decide)
  · intro hne order hperm
    rw [htrans order _ hperm hascii]
    exact resolveVersion_of_matches Char.toLower ("/providers/".toList ++ p.1) order
      DEFAULT_API_VERSION hperm (fun v => v = p.2) ⟨p, hp, hself⟩
      (fun e he hm => hall e he hm hne)

set_option maxRecDepth 1000000 in
/-- C21, witness: the ASCII case mapping; the path of `Microsoft.Compute/disks`
resolves to `2018-06-01` in the reversed table. -/
theorem C21_order_independence_witness :
    resolveVersion Char.toLower DEFAULT_API_VERSION.reverse
        ("/providers/".toList ++ "Microsoft.Compute/disks".toList) = "2018-06-01".toList :=
  ((C21_order_independence Char.toLower (fun _ _ => rfl)).1
    ("Microsoft.Compute/disks".toList, "2018-06-01".toList) (by decide)).2.mpr (by decide)
    DEFAULT_API_VERSION.reverse (List.reverse_perm _)

end Azure
